import Mathlib

/-! ak8s: resource collections and their name search.

A shallow embedding of `pods.go` (package `ak8s`): the `PodCollection` type,
its accessors, the two-tier name search `Search` / `podSearchBak`, and the
fetch functions `GetAllPods`, `GetPods` and `GetPod` of the client; of
`clientOptions.go`; and of the files of the other seven kinds, which repeat
`pods.go`.

Conventions of the embedding.

* A Go `string` is a Lean `String`; `strings.Contains` is modelled on the
  character lists (for valid UTF-8, the case of resource names, containment on
  bytes and on characters agree).
* A Go function that can panic returns `Except String _`: `Except.error msg`
  is a panic whose value prints (with `%s`) as `msg`.
* `PodCollection` embeds a `*v1.PodList`; the pointer may be nil (the value
  `&PodCollection{}`), hence `PodList : Option PodList`.  Reading `c.Items`
  through a nil pointer panics.
* The package `regexp` of the Go standard library is not part of the
  repository.  `Search` is embedded over an arbitrary implementation of the
  three things it uses from it (`Regexp`), and general theorems hold for every
  implementation.  Closed examples use `goRegexp`, a model of the real package
  on a small fragment of its syntax.
-/

namespace Ak8s

/-! ## Strings -/

/-- Go `strings.HasPrefix` on character lists. -/
def hasPrefixChars : List Char → List Char → Bool
  | _, [] => true
  | [], _ :: _ => false
  | c :: s, d :: p => c == d && hasPrefixChars s p

/-- Go `strings.Contains` on character lists: `sub` occurs in `s` at some offset. -/
def containsChars : List Char → List Char → Bool
  | [], sub => hasPrefixChars [] sub
  | c :: s, sub => hasPrefixChars (c :: s) sub || containsChars s sub

/-- Go `strings.Contains(s, substr)`. -/
def stringsContains (s substr : String) : Bool :=
  containsChars s.data substr.data

/-! ## Data model (`k8s.io/api/core/v1`, the fields the package touches) -/

/-- The `v1.Pod` object: `TypeMeta` (`APIVersion`, `Kind`) and the two
`ObjectMeta` fields the package reads (`Name`, `UID`). -/
structure V1Pod where
  APIVersion : String
  Kind : String
  Name : String
  UID : String
  deriving DecidableEq, Repr

/-- The `v1.PodList` object: `TypeMeta` and `Items`.  The zero value
(`var list v1.PodList`) has empty tags and no items. -/
structure PodList where
  APIVersion : String
  Kind : String
  Items : List V1Pod
  deriving DecidableEq, Repr

/-- Pod Constants. -/
def PodAPIVersion : String := "v1"

/-- Pod Constants. -/
def PodListKind : String := "List"

/-- Pod Constants. -/
def PodKind : String := "Pod"

/-- PodCollection Contains a Collection of Pods.  `PodList` is the embedded
`*v1.PodList`; `none` is the nil pointer. -/
structure PodCollection where
  APIVersion : String
  Kind : String
  PodList : Option PodList
  deriving DecidableEq, Repr

/-- The panic value of a nil pointer dereference, as `%s` prints it. -/
def nilDeref : String :=
  "runtime error: invalid memory address or nil pointer dereference"

/-- The promoted field `c.Items`: panics when the embedded pointer is nil. -/
def PodCollection.Items (c : PodCollection) : Except String (List V1Pod) :=
  match c.PodList with
  | some l => Except.ok l.Items
  | none => Except.error nilDeref

/-- GetKind returns the collection kind (the outer `Kind` field, which
shadows the embedded one). -/
def PodCollection.GetKind (c : PodCollection) : String :=
  c.Kind

/-! ## Package `regexp`, as `Search` uses it -/

/-- The part of package `regexp` that `Search` calls, for compiled
expressions of type `ρ`. -/
structure Regexp (ρ : Type) where
  /-- The function `regexp.Compile`: the compiled expression, or the text of its error. -/
  Compile : String → Except String ρ
  /-- The method `MatchString` of a compiled expression. -/
  MatchString : ρ → String → Bool
  /-- The helper `quote` that `MustCompile` uses in its panic message. -/
  quote : String → String

/-- MustCompile is like Compile but panics if the expression cannot be parsed:
``panic(`regexp: Compile(` + quote(str) + `): ` + err.Error())``. -/
def Regexp.MustCompile {ρ : Type} (re : Regexp ρ) (str : String) : Except String ρ :=
  match re.Compile str with
  | Except.ok regex => Except.ok regex
  | Except.error err => Except.error ("regexp: Compile(" ++ re.quote str ++ "): " ++ err)

/-! ## The search -/

/-- The loop `for _, item := range items { if keep(item) { matches = append(matches, item) } }`,
starting from the slice `found` (the variable `matches` of the source). -/
def rangeAppend (keep : V1Pod → Bool) : List V1Pod → List V1Pod → List V1Pod
  | [], found => found
  | item :: items, found =>
    if keep item then rangeAppend keep items (found ++ [item])
    else rangeAppend keep items found

/-- The loop `for _, r := range rest { regexString += "|" + r }`. -/
def joinRest : List String → String → String
  | [], regexString => regexString
  | r :: rest, regexString => joinRest rest (regexString ++ ("|" ++ r))

/-- The value of the variable `regexString` of `Search` when `MustCompile` is
called on it: `names[0]` in the branch `len(names) == 1`, and in the default
branch `first` appended to the empty string followed by `"|" + r` for every
`r` of `names[1:]`. -/
def regexString : List String → String
  | [] => ""
  | [name] => name
  | first :: rest => joinRest rest ("" ++ first)

/-- The collection both tiers return: a zero `v1.PodList` whose `Items` is
set to the matches (`list.Items = matches`), under the `APIVersion` and `Kind`
of `c` (`&PodCollection{c.APIVersion, c.Kind, &list}`). -/
def PodCollection.withMatches (c : PodCollection) (found : List V1Pod) : PodCollection :=
  { APIVersion := c.APIVersion, Kind := c.Kind,
    PodList := some { APIVersion := "", Kind := "", Items := found } }

/-- The outer loop of `podSearchBak` over `names`, with the inner loop over
`c.Items`; `c.Items` is read once for every name. -/
def podSearchBakLoop (c : PodCollection) : List String → List V1Pod → Except String (List V1Pod)
  | [], found => Except.ok found
  | name :: names, found =>
    match c.Items with
    | Except.error r => Except.error r
    | Except.ok items =>
      podSearchBakLoop c names
        (rangeAppend (fun item => stringsContains item.Name name) items found)

/-- The fallback `podSearchBak`: literal containment, pattern by pattern. -/
def PodCollection.podSearchBak (c : PodCollection) (names : List String) :
    Except String PodCollection :=
  match podSearchBakLoop c names [] with
  | Except.error r => Except.error r
  | Except.ok found =>
    Except.ok (c.withMatches found)

/-- The body of `Search`, up to its `return`s, before the deferred function
runs: `Except.error r` is a panic with value `r`. -/
def searchBody {ρ : Type} (re : Regexp ρ) (c : PodCollection) :
    List String → Except String PodCollection
  | [] => Except.ok c
  | [name] =>
    match re.MustCompile name with
    | Except.error r => Except.error r
    | Except.ok regex =>
      match c.Items with
      | Except.error r => Except.error r
      | Except.ok items =>
        Except.ok (c.withMatches (rangeAppend (fun pod => re.MatchString regex pod.Name) items []))
  | first :: rest =>
    match re.MustCompile (joinRest rest ("" ++ first)) with
    | Except.error r => Except.error r
    | Except.ok regex =>
      match c.Items with
      | Except.error r => Except.error r
      | Except.ok items =>
        Except.ok (c.withMatches (rangeAppend (fun pod => re.MatchString regex pod.Name) items []))

/-- Search conducts a wildcard search by names and returns matching items.
The deferred function recovers a panic whose text contains `regexp` by
returning `c.podSearchBak(names...)` and panics again with any other value. -/
def PodCollection.Search {ρ : Type} (c : PodCollection) (re : Regexp ρ) (names : List String) :
    Except String PodCollection :=
  match searchBody re c names with
  | Except.ok collection => Except.ok collection
  | Except.error r =>
    if stringsContains r "regexp" then c.podSearchBak names else Except.error r

/-! ## A model of package `regexp` on a fragment of its syntax

`goRegexp` follows the real package on patterns built from literal
characters, `.`, `|` and groups `( )`, and on a pattern that ends in an
opening `[`.  Any other use of a metacharacter is outside the fragment; the
model answers it with an error of its own, and no statement below evaluates
it on such a pattern.  Nor does the model bound the nesting of groups, which
the real package limits to 1000. -/

/-- Parsed expressions of the fragment (`fail` matches nothing and only
arises while matching). -/
inductive Rx where
  | fail : Rx
  | eps : Rx
  | lit : Char → Rx
  | dot : Rx
  | cat : Rx → Rx → Rx
  | alt : Rx → Rx → Rx
  deriving DecidableEq, Repr

/-- One open group of the parser: the alternatives closed so far and the
concatenation being read. -/
structure Frame where
  alts : Option Rx
  cur : Rx
  deriving DecidableEq, Repr

/-- The expression of a frame when its group (or the pattern) ends. -/
def Frame.close (f : Frame) : Rx :=
  match f.alts with
  | none => f.cur
  | some a => Rx.alt a f.cur

/-- The frame after a `|`. -/
def Frame.bar (f : Frame) : Frame :=
  { alts := some f.close, cur := Rx.eps }

/-- The frame after one more atom. -/
def Frame.push (f : Frame) (r : Rx) : Frame :=
  { alts := f.alts, cur := Rx.cat f.cur r }

/-- The metacharacters of the syntax other than `.`, `|`, `(` and `)`. -/
def otherMeta : List Char :=
  ['\\', '+', '*', '?', '[', ']', '{', '}', '^', '$']

/-- The text of a parse error: `error parsing regexp: ` code `: ` expression in backquotes. -/
def parseError (code expr : String) : String :=
  "error parsing regexp: " ++ code ++ ": `" ++ expr ++ "`"

/-- The parser, left to right over the pattern, with the stack of open groups. -/
def parseLoop (whole : String) : List Char → Frame → List Frame → Except String Rx
  | [], top, [] => Except.ok top.close
  | [], _, _ :: _ => Except.error (parseError "missing closing )" whole)
  | c :: s, top, stack =>
    if c = '(' then parseLoop whole s { alts := none, cur := Rx.eps } (top :: stack)
    else if c = ')' then
      match stack with
      | [] => Except.error (parseError "unexpected )" whole)
      | parent :: stack' => parseLoop whole s (parent.push top.close) stack'
    else if c = '|' then parseLoop whole s top.bar stack
    else if c = '.' then parseLoop whole s (top.push Rx.dot) stack
    else if c = '[' ∧ s = [] then Except.error (parseError "missing closing ]" "[")
    else if c ∈ otherMeta then Except.error "outside the modelled fragment"
    else parseLoop whole s (top.push (Rx.lit c)) stack

/-- Whether the expression matches the empty string. -/
def Rx.nullable : Rx → Bool
  | Rx.fail => false
  | Rx.eps => true
  | Rx.lit _ => false
  | Rx.dot => false
  | Rx.cat r s => r.nullable && s.nullable
  | Rx.alt r s => r.nullable || s.nullable

/-- The expression matching what is left of a match after the character `c`. -/
def Rx.deriv : Rx → Char → Rx
  | Rx.fail, _ => Rx.fail
  | Rx.eps, _ => Rx.fail
  | Rx.lit d, c => if c = d then Rx.eps else Rx.fail
  | Rx.dot, c => if c = '\n' then Rx.fail else Rx.eps
  | Rx.cat r s, c =>
    if r.nullable then Rx.alt (Rx.cat (r.deriv c) s) (s.deriv c) else Rx.cat (r.deriv c) s
  | Rx.alt r s, c => Rx.alt (r.deriv c) (s.deriv c)

/-- Whether the expression matches some prefix of the characters. -/
def Rx.matchesPrefixOf : Rx → List Char → Bool
  | r, [] => r.nullable
  | r, c :: s => r.nullable || (r.deriv c).matchesPrefixOf s

/-- Whether the expression matches somewhere in the characters (unanchored). -/
def Rx.matchesIn : Rx → List Char → Bool
  | r, [] => r.nullable
  | r, c :: s => r.matchesPrefixOf (c :: s) || r.matchesIn s

/-- The model of package `regexp` on the fragment. -/
def goRegexp : Regexp Rx where
  Compile := fun expr => parseLoop expr expr.data { alts := none, cur := Rx.eps } []
  MatchString := fun regex s => regex.matchesIn s.data
  quote := fun s => "`" ++ s ++ "`"

/-! ## Example data -/

/-- A pod named `name` as `GetAllPods` stamps it. -/
def pod (name : String) : V1Pod :=
  { APIVersion := PodAPIVersion, Kind := PodKind, Name := name, UID := "uid-" ++ name }

/-- The collection `GetAllPods` builds from pods with the given names. -/
def podsNamed (names : List String) : PodCollection :=
  { APIVersion := PodAPIVersion, Kind := PodListKind,
    PodList := some { APIVersion := PodAPIVersion, Kind := PodListKind,
                      Items := names.map pod } }

/-- The names of the items of a result, or `none` after a panic. -/
def resultNames : Except String PodCollection → Option (List String)
  | Except.ok c => c.PodList.map (fun l => l.Items.map (fun p => p.Name))
  | Except.error _ => none

deriving instance DecidableEq for Except

/-- The names `sub` that occur in `s` as a literal substring (a contiguous run
of its characters), stated without reference to the code. -/
def IsSubstring (sub s : String) : Prop :=
  sub.data <:+: s.data

instance (sub s : String) : Decidable (IsSubstring sub s) :=
  inferInstanceAs (Decidable (sub.data <:+: s.data))

/-- Whether `name` matches the pattern `p` taken on its own: `p` compiles and
the compiled expression matches `name`. -/
def matchesAlone {ρ : Type} (re : Regexp ρ) (p name : String) : Bool :=
  match re.Compile p with
  | Except.ok regex => re.MatchString regex name
  | Except.error _ => false

/-! ## The accessors of a collection -/

set_option linter.dupNamespace false in
/-- Pod contains a v1.Pod resource.  `Pod` is the embedded `*v1.Pod`; `none`
is the nil pointer of the zero value `Pod{}`. -/
structure Pod where
  APIVersion : String
  Kind : String
  Pod : Option V1Pod
  deriving DecidableEq, Repr

/-- The zero value `Pod{}`. -/
def zeroPod : Pod :=
  { APIVersion := "", Kind := "", Pod := none }

/-- The loop of `GetNames`: `for _, pod := range c.Items { names = append(names, pod.Name) }`. -/
def getNamesLoop : List V1Pod → List String → List String
  | [], names => names
  | item :: items, names => getNamesLoop items (names ++ [item.Name])

/-- GetNames returns all item names contained within the Collection. -/
def PodCollection.GetNames (c : PodCollection) : Except String (List String) :=
  match c.Items with
  | Except.error r => Except.error r
  | Except.ok items => Except.ok (getNamesLoop items [])

/-- Len returns the number of items in the collection: `len(c.Items)`. -/
def PodCollection.Len (c : PodCollection) : Except String Nat :=
  match c.Items with
  | Except.error r => Except.error r
  | Except.ok items => Except.ok items.length

/-- The loop of `Get`: the first item whose `Name` equals `name` is returned
wrapped as `Pod{PodAPIVersion, PodKind, &item}`; `Pod{}` when the loop ends. -/
def getLoop (name : String) : List V1Pod → Pod
  | [] => zeroPod
  | item :: items =>
    if item.Name = name then { APIVersion := PodAPIVersion, Kind := PodKind, Pod := some item }
    else getLoop name items

/-- Get returns an item by name. -/
def PodCollection.Get (c : PodCollection) (name : String) : Except String Pod :=
  match c.Items with
  | Except.error r => Except.error r
  | Except.ok items => Except.ok (getLoop name items)

/-! ## The client (`client.go`, `clientOptions.go`) and the fetch functions

The clientset of `k8s.io/client-go` is the external collaborator.  A call to
it is a step on a state `σ` of the cluster connection: it takes the state and
returns its answer (the object, or the text of the error) with the next
state, so that two lookups of one name may answer differently. -/

/-- The `schema.GroupVersionKind` of apimachinery. -/
structure GroupVersionKind where
  Group : String
  Version : String
  Kind : String
  deriving DecidableEq, Repr

/-- ToAPIVersionAndKind of apimachinery: two empty strings for the empty
value, else the group and version joined by `/` (the version alone when the
group is empty) and the kind. -/
def GroupVersionKind.ToAPIVersionAndKind (gvk : GroupVersionKind) : String × String :=
  if gvk.Group = "" ∧ gvk.Version = "" ∧ gvk.Kind = "" then ("", "")
  else (if gvk.Group ≠ "" then gvk.Group ++ "/" ++ gvk.Version else gvk.Version, gvk.Kind)

/-- SetGroupVersionKind on a `v1.Pod`: sets the `TypeMeta` of the object. -/
def V1Pod.SetGroupVersionKind (p : V1Pod) (gvk : GroupVersionKind) : V1Pod :=
  { p with APIVersion := gvk.ToAPIVersionAndKind.1, Kind := gvk.ToAPIVersionAndKind.2 }

/-- SetGroupVersionKind on a `v1.PodList`: sets the `TypeMeta` of the list. -/
def PodList.SetGroupVersionKind (l : PodList) (gvk : GroupVersionKind) : PodList :=
  { l with APIVersion := gvk.ToAPIVersionAndKind.1, Kind := gvk.ToAPIVersionAndKind.2 }

/-- The `v1.ListOptions` of apimachinery (the selectors stand for its fields). -/
structure ListOptions where
  LabelSelector : String
  FieldSelector : String
  deriving DecidableEq, Repr

/-- The `v1.GetOptions` of apimachinery. -/
structure GetOptions where
  ResourceVersion : String
  deriving DecidableEq, Repr

/-- The `v1.DeleteOptions` of apimachinery (the policy stands for its fields). -/
structure DeleteOptions where
  PropagationPolicy : String
  deriving DecidableEq, Repr

/-- ActionOption defines an Action (`type ActionOption int`). -/
abbrev ActionOption := Int

/-- ActionOption Constants. -/
def ListOption : ActionOption := 0

/-- ActionOption Constants. -/
def GetOption : ActionOption := 1

/-- ActionOption Constants. -/
def DeleteOption : ActionOption := 2

/-- ListAction contains Options for performing Listing type Actions. -/
structure ListAction where
  ListOptions : ListOptions
  deriving DecidableEq, Repr

/-- GetAction contains Options for performing Listing type Actions. -/
structure GetAction where
  GetOptions : GetOptions
  deriving DecidableEq, Repr

/-- DeleteAction contains Options for performing Delete type Actions. -/
structure DeleteAction where
  DeleteOptions : DeleteOptions
  deriving DecidableEq, Repr

/-- K8sAction is any k8s option needed to perform actions or tasks: a value of
the interface is a pointer to one of the three action types. -/
inductive K8sAction where
  | list : ListAction → K8sAction
  | get : GetAction → K8sAction
  | delete : DeleteAction → K8sAction
  deriving DecidableEq, Repr

/-- Get returns the v1 Option. -/
def ListAction.Get (a : ListAction) : Ak8s.ListOptions :=
  a.ListOptions

/-- Get returns the v1 Option. -/
def GetAction.Get (a : GetAction) : Ak8s.GetOptions :=
  a.GetOptions

/-- ActionsMap maps ActionOptions to K8sActions; `none` is the nil interface
a Go map gives for a key it does not hold. -/
abbrev ActionsMap := ActionOption → Option K8sAction

/-- The assignment `actionsMap[key] = action`. -/
def ActionsMap.set (m : ActionsMap) (key : ActionOption) (action : K8sAction) : ActionsMap :=
  fun k => if k = key then some action else m k

/-- The map `makeActionMap` builds: the three actions with zero-valued options. -/
def makeActionMap : ActionsMap :=
  ActionsMap.set
    (ActionsMap.set
      (ActionsMap.set (fun _ => none) ListOption
        (K8sAction.list { ListOptions := { LabelSelector := "", FieldSelector := "" } }))
      GetOption (K8sAction.get { GetOptions := { ResourceVersion := "" } }))
    DeleteOption (K8sAction.delete { DeleteOptions := { PropagationPolicy := "" } })

/-- The type assertion `.(*ListAction)`: panics on any other value. -/
def assertListAction : Option K8sAction → Except String ListAction
  | some (K8sAction.list a) => Except.ok a
  | some (K8sAction.get _) =>
    Except.error "interface conversion: ak8s.K8sAction is *ak8s.GetAction, not *ak8s.ListAction"
  | some (K8sAction.delete _) =>
    Except.error "interface conversion: ak8s.K8sAction is *ak8s.DeleteAction, not *ak8s.ListAction"
  | none => Except.error "interface conversion: ak8s.K8sAction is nil, not *ak8s.ListAction"

/-- The type assertion `.(*GetAction)`: panics on any other value. -/
def assertGetAction : Option K8sAction → Except String GetAction
  | some (K8sAction.get a) => Except.ok a
  | some (K8sAction.list _) =>
    Except.error "interface conversion: ak8s.K8sAction is *ak8s.ListAction, not *ak8s.GetAction"
  | some (K8sAction.delete _) =>
    Except.error "interface conversion: ak8s.K8sAction is *ak8s.DeleteAction, not *ak8s.GetAction"
  | none => Except.error "interface conversion: ak8s.K8sAction is nil, not *ak8s.GetAction"

/-- The two calls the pod functions make on the clientset:
`CoreV1().Pods(ns).Get(name, opts)` and `CoreV1().Pods(ns).List(opts)`. -/
structure Clientset (σ : Type) where
  /-- The call `Pods(ns).Get(name, opts)`. -/
  PodsGet : String → String → GetOptions → σ → Except String V1Pod × σ
  /-- The call `Pods(ns).List(opts)`. -/
  PodsList : String → ListOptions → σ → Except String PodList × σ

/-- Client intereacts with Kubernetes. -/
structure Client (σ : Type) where
  Options : ActionsMap
  CS : Clientset σ
  NS : String

/-- The value `&PodCollection{}`: empty tags and a nil list pointer. -/
def emptyPodCollection : PodCollection :=
  { APIVersion := "", Kind := "", PodList := none }

/-- The zero value `v1.PodList{}`. -/
def zeroPodList : PodList :=
  { APIVersion := "", Kind := "", Items := [] }

/-- The loop `for i := 0; i < len(list.Items); i++` that stamps every item
with the version `v1` and the kind `Pod`. -/
def stampItems : List V1Pod → List V1Pod
  | [] => []
  | item :: items =>
    item.SetGroupVersionKind { Group := "", Version := PodAPIVersion, Kind := PodKind }
      :: stampItems items

/-- GetAllPods returns All Pods for the current namespace set on the client or
all Pods across all namespaces if not set.  The result is the collection, the
error (`none` is nil) and the next state of the connection. -/
def Client.GetAllPods {σ : Type} (c : Client σ) (s : σ) :
    Except String (PodCollection × Option String × σ) :=
  match assertListAction (c.Options ListOption) with
  | Except.error r => Except.error r
  | Except.ok a =>
    match c.CS.PodsList c.NS a.Get s with
    | (Except.error err, s') => Except.ok (emptyPodCollection, some err, s')
    | (Except.ok list, s') =>
      Except.ok
        ({ APIVersion := (list.SetGroupVersionKind
              { Group := "", Version := PodAPIVersion, Kind := PodListKind }).APIVersion,
           Kind := (list.SetGroupVersionKind
              { Group := "", Version := PodAPIVersion, Kind := PodListKind }).Kind,
           PodList := some
             { list.SetGroupVersionKind
                 { Group := "", Version := PodAPIVersion, Kind := PodListKind } with
               Items := stampItems list.Items } },
         none, s')

/-- The loop of `GetPods` over `names`: a failed lookup appends its message
and a newline to `errd`, a successful one appends the pod to `pods`. -/
def getPodsLoop {σ : Type} (c : Client σ) (ns : String) :
    List String → List V1Pod → String → σ → Except String (List V1Pod × String × σ)
  | [], pods, errd, s => Except.ok (pods, errd, s)
  | name :: names, pods, errd, s =>
    match assertGetAction (c.Options GetOption) with
    | Except.error r => Except.error r
    | Except.ok a =>
      match c.CS.PodsGet ns name a.Get s with
      | (Except.error err, s') => getPodsLoop c ns names pods (errd ++ (err ++ "\n")) s'
      | (Except.ok p, s') => getPodsLoop c ns names (pods ++ [p]) errd s'

/-- The part of `GetPods` after the loop, for `n` requested names: the
`switch` on `len(pods)` and `errd`, and the construction of the collection. -/
def getPodsFinish (n : Nat) (pods : List V1Pod) (errd : String) :
    PodCollection × Option String :=
  if pods.length < 1 ∧ errd ≠ "" then (emptyPodCollection, some errd)
  else if pods.length < 1 ∧ errd = "" then
    (emptyPodCollection, some (toString n ++ " pods not found"))
  else
    ({ APIVersion := (zeroPodList.SetGroupVersionKind
          { Group := "", Version := PodAPIVersion, Kind := PodListKind }).APIVersion,
       Kind := (zeroPodList.SetGroupVersionKind
          { Group := "", Version := PodAPIVersion, Kind := PodListKind }).Kind,
       PodList := some
         { zeroPodList.SetGroupVersionKind
             { Group := "", Version := PodAPIVersion, Kind := PodListKind } with
           Items := stampItems pods } },
     if pods.length > 0 ∧ errd ≠ "" then some errd else none)

/-- The namespace `GetPods` and `GetPod` look names up in. -/
def lookupNS (ns : String) : String :=
  if ns = "" then "default" else ns

/-- GetPods returns Pods for the given namespaces.
If the namespace is not set on the client, the "default" namespace is used. -/
def Client.GetPods {σ : Type} (c : Client σ) (names : List String) (s : σ) :
    Except String (PodCollection × Option String × σ) :=
  if names.length < 1 then Except.ok (emptyPodCollection, some "no pods specified", s)
  else
    match getPodsLoop c (lookupNS c.NS) names [] "" s with
    | Except.error r => Except.error r
    | Except.ok (pods, errd, s') =>
      Except.ok ((getPodsFinish names.length pods errd).1,
        (getPodsFinish names.length pods errd).2, s')

/-- GetPod returns the Pod for the given pod name. -/
def Client.GetPod {σ : Type} (c : Client σ) (name : String) (s : σ) :
    Except String (Pod × Option String × σ) :=
  match assertGetAction (c.Options GetOption) with
  | Except.error r => Except.error r
  | Except.ok a =>
    match c.CS.PodsGet (lookupNS c.NS) name a.Get s with
    | (Except.error err, s') => Except.ok (zeroPod, some err, s')
    | (Except.ok p, s') =>
      Except.ok
        ({ APIVersion := (p.SetGroupVersionKind
              { Group := "", Version := PodAPIVersion, Kind := PodKind }).APIVersion,
           Kind := (p.SetGroupVersionKind
              { Group := "", Version := PodAPIVersion, Kind := PodKind }).Kind,
           Pod := some (p.SetGroupVersionKind
              { Group := "", Version := PodAPIVersion, Kind := PodKind }) },
         none, s')

/-! ### The answers of the clientset, in request order -/

/-- The answers of the clientset to the lookups of `names`, one after the
other from the state `s`, and the state after the last one. -/
def lookups {σ : Type} (cs : Clientset σ) (ns : String) (opts : GetOptions) :
    List String → σ → List (Except String V1Pod) × σ
  | [], s => ([], s)
  | name :: names, s =>
    ((cs.PodsGet ns name opts s).1 :: (lookups cs ns opts names (cs.PodsGet ns name opts s).2).1,
      (lookups cs ns opts names (cs.PodsGet ns name opts s).2).2)

/-- The objects of the lookups that succeeded, in request order. -/
def resolved : List (Except String V1Pod) → List V1Pod
  | [] => []
  | Except.ok p :: answers => p :: resolved answers
  | Except.error _ :: answers => resolved answers

/-- The messages of the lookups that failed, in request order. -/
def failures : List (Except String V1Pod) → List String
  | [] => []
  | Except.ok _ :: answers => failures answers
  | Except.error err :: answers => err :: failures answers

/-- The concatenation of the messages, each followed by a newline. -/
def combinedError : List String → String
  | [] => ""
  | err :: errs => (err ++ "\n") ++ combinedError errs

/-- A request made to the clientset. -/
inductive Call where
  | get : String → String → GetOptions → Call
  | list : String → ListOptions → Call
  deriving DecidableEq, Repr

/-- The clientset `cs` with a record of the requests made to it, in order. -/
def Clientset.traced {σ : Type} (cs : Clientset σ) : Clientset (σ × List Call) where
  PodsGet := fun ns name opts s =>
    ((cs.PodsGet ns name opts s.1).1,
      ((cs.PodsGet ns name opts s.1).2, s.2 ++ [Call.get ns name opts]))
  PodsList := fun ns opts s =>
    ((cs.PodsList ns opts s.1).1, ((cs.PodsList ns opts s.1).2, s.2 ++ [Call.list ns opts]))

/-- A cluster of the examples: the pods cat and bat exist in the namespace
`default`, every other lookup fails with `pods "NAME" not found`, and the
state counts the requests. -/
def exampleCluster : Clientset Nat where
  PodsGet := fun ns name _ s =>
    (if ns = "default" ∧ (name = "cat" ∨ name = "bat")
      then Except.ok { APIVersion := "", Kind := "", Name := name, UID := "uid-" ++ name }
      else Except.error ("pods \"" ++ name ++ "\" not found"), s + 1)
  PodsList := fun ns _ s =>
    (if ns = "" ∨ ns = "default"
      then Except.ok { APIVersion := "", Kind := "", Items :=
        [{ APIVersion := "", Kind := "", Name := "cat", UID := "uid-cat" },
         { APIVersion := "", Kind := "", Name := "bat", UID := "uid-bat" }] }
      else Except.error "namespace not served", s + 1)

/-- A client as `NewClient` builds it, on the example cluster, with the
namespace `ns`. -/
def exampleClient (ns : String) : Client Nat :=
  { Options := makeActionMap, CS := exampleCluster, NS := ns }

/-- A cluster of the examples whose lookups all fail with an empty message. -/
def silentCluster : Clientset Nat where
  PodsGet := fun _ _ _ s => (Except.error "", s + 1)
  PodsList := fun _ _ s => (Except.error "", s + 1)

/-! ## The type discriminators of the actions (`clientOptions.go`) -/

/-- GetType implements K8sAction. -/
def ListAction.GetType (_ : ListAction) : ActionOption :=
  ListOption

/-- GetType implements K8sAction (the source returns `ListOption` here). -/
def GetAction.GetType (_ : GetAction) : ActionOption :=
  ListOption

/-- GetType implements K8sAction. -/
def DeleteAction.GetType (_ : DeleteAction) : ActionOption :=
  DeleteOption

/-- The method `GetType` of a value of the interface `K8sAction`. -/
def K8sAction.GetType : K8sAction → ActionOption
  | K8sAction.list a => a.GetType
  | K8sAction.get a => a.GetType
  | K8sAction.delete a => a.GetType

/-! ## The other seven kinds

`nodes.go`, `services.go`, `secrets.go`, `deployments.go`, `daemonsets.go`,
`replicasets.go` and `ingress.go` repeat the text of `pods.go` with the names
of the kind in place of those of the pod, and with a group constant for the
last four.  Their collection functions are embedded once, over the constants
of the kind and over the part `β` of an object that the package does not
read. -/

/-- The constants of a kind: `DeploymentAPIGroup`, `DeploymentAPIVersion`,
`DeploymentListKind` and `DeploymentKind` for deployments, and so on.  The
kinds of the core API have no group constant and pass no group, which is the
empty group. -/
structure ResourceKind where
  APIGroup : String
  APIVersion : String
  ListKind : String
  Kind : String
  deriving DecidableEq, Repr

/-- Node Constants. -/
def nodeKind : ResourceKind :=
  { APIGroup := "", APIVersion := "v1", ListKind := "List", Kind := "Node" }

/-- Service Constants. -/
def serviceKind : ResourceKind :=
  { APIGroup := "", APIVersion := "v1", ListKind := "List", Kind := "Service" }

/-- Secret Constants. -/
def secretKind : ResourceKind :=
  { APIGroup := "", APIVersion := "v1", ListKind := "List", Kind := "Secret" }

/-- Deployment Constants. -/
def deploymentKind : ResourceKind :=
  { APIGroup := "apps", APIVersion := "v1", ListKind := "List", Kind := "Deployment" }

/-- DaemonSet Constants. -/
def daemonSetKind : ResourceKind :=
  { APIGroup := "apps", APIVersion := "v1", ListKind := "List", Kind := "DaemonSet" }

/-- ReplicaSet Constants. -/
def replicaSetKind : ResourceKind :=
  { APIGroup := "apps", APIVersion := "v1", ListKind := "List", Kind := "ReplicaSet" }

/-- Ingresses Constants. -/
def ingressKind : ResourceKind :=
  { APIGroup := "extensions", APIVersion := "v1beta1", ListKind := "List", Kind := "Ingress" }

/-- The seven kinds other than the pod. -/
def otherKinds : List ResourceKind :=
  [nodeKind, serviceKind, secretKind, deploymentKind, daemonSetKind, replicaSetKind,
    ingressKind]

/-- An object of a kind (`v1.Node`, `v1.Deployment`, ...): `TypeMeta`, the two
`ObjectMeta` fields read, and the rest of the object. -/
structure Object (β : Type) where
  APIVersion : String
  Kind : String
  Name : String
  UID : String
  Body : β
  deriving DecidableEq, Repr

/-- The list object of a kind (`v1.NodeList`, `v1.DeploymentList`, ...). -/
structure ObjectList (β : Type) where
  APIVersion : String
  Kind : String
  Items : List (Object β)
  deriving DecidableEq, Repr

/-- The collection of a kind (`NodeCollection`, `DeployomentCollection`, ...);
`ItemList` is the embedded list pointer, `none` when nil. -/
structure KindCollection (β : Type) where
  APIVersion : String
  Kind : String
  ItemList : Option (ObjectList β)
  deriving DecidableEq, Repr

/-- The wrapper of one object of a kind (`Node`, `Deployment`, ...); `Item` is
the embedded object pointer, `none` when nil. -/
structure KindItem (β : Type) where
  APIVersion : String
  Kind : String
  Item : Option (Object β)
  deriving DecidableEq, Repr

/-- SetGroupVersionKind on an object of a kind. -/
def Object.SetGroupVersionKind {β : Type} (p : Object β) (gvk : GroupVersionKind) :
    Object β :=
  { p with APIVersion := gvk.ToAPIVersionAndKind.1, Kind := gvk.ToAPIVersionAndKind.2 }

/-- SetGroupVersionKind on the list object of a kind. -/
def ObjectList.SetGroupVersionKind {β : Type} (l : ObjectList β) (gvk : GroupVersionKind) :
    ObjectList β :=
  { l with APIVersion := gvk.ToAPIVersionAndKind.1, Kind := gvk.ToAPIVersionAndKind.2 }

/-- The promoted field `c.Items` of a collection of a kind. -/
def KindCollection.Items {β : Type} (c : KindCollection β) :
    Except String (List (Object β)) :=
  match c.ItemList with
  | some l => Except.ok l.Items
  | none => Except.error nilDeref

/-- GetKind returns the collection kind. -/
def KindCollection.GetKind {β : Type} (c : KindCollection β) : String :=
  c.Kind

/-- The loop of `GetNames` of a kind. -/
def kindGetNamesLoop {β : Type} : List (Object β) → List String → List String
  | [], names => names
  | item :: items, names => kindGetNamesLoop items (names ++ [item.Name])

/-- GetNames returns all item names contained within the Collection. -/
def KindCollection.GetNames {β : Type} (c : KindCollection β) : Except String (List String) :=
  match c.Items with
  | Except.error r => Except.error r
  | Except.ok items => Except.ok (kindGetNamesLoop items [])

/-- Len returns the number of items in the collection. -/
def KindCollection.Len {β : Type} (c : KindCollection β) : Except String Nat :=
  match c.Items with
  | Except.error r => Except.error r
  | Except.ok items => Except.ok items.length

/-- The loop of `Get` of a kind `k`: the first item whose `Name` equals `name`,
wrapped under the version and kind constants of `k` (as in
`Deployment{DeploymentAPIVersion, DeploymentKind, &item}`); the zero wrapper
when the loop ends. -/
def kindGetLoop {β : Type} (k : ResourceKind) (name : String) : List (Object β) → KindItem β
  | [] => { APIVersion := "", Kind := "", Item := none }
  | item :: items =>
    if item.Name = name then { APIVersion := k.APIVersion, Kind := k.Kind, Item := some item }
    else kindGetLoop k name items

/-- Get returns an item by name. -/
def KindCollection.Get {β : Type} (k : ResourceKind) (c : KindCollection β) (name : String) :
    Except String (KindItem β) :=
  match c.Items with
  | Except.error r => Except.error r
  | Except.ok items => Except.ok (kindGetLoop k name items)

/-- The loop that appends the items kept to `found` (the variable `matches`). -/
def kindRangeAppend {β : Type} (keep : Object β → Bool) :
    List (Object β) → List (Object β) → List (Object β)
  | [], found => found
  | item :: items, found =>
    if keep item then kindRangeAppend keep items (found ++ [item])
    else kindRangeAppend keep items found

/-- The collection both tiers of a kind return: a zero list object with the
matches as `Items`, under the `APIVersion` and `Kind` of `c`. -/
def KindCollection.withMatches {β : Type} (c : KindCollection β) (found : List (Object β)) :
    KindCollection β :=
  { APIVersion := c.APIVersion, Kind := c.Kind,
    ItemList := some { APIVersion := "", Kind := "", Items := found } }

/-- The outer loop of the fallback of a kind (`deploymentsearchBak`, ...). -/
def kindSearchBakLoop {β : Type} (c : KindCollection β) :
    List String → List (Object β) → Except String (List (Object β))
  | [], found => Except.ok found
  | name :: names, found =>
    match c.Items with
    | Except.error r => Except.error r
    | Except.ok items =>
      kindSearchBakLoop c names
        (kindRangeAppend (fun item => stringsContains item.Name name) items found)

/-- The fallback of a kind (`nodeSearchBak`, `deploymentsearchBak`, ...). -/
def KindCollection.searchBak {β : Type} (c : KindCollection β) (names : List String) :
    Except String (KindCollection β) :=
  match kindSearchBakLoop c names [] with
  | Except.error r => Except.error r
  | Except.ok found => Except.ok (c.withMatches found)

/-- The body of `Search` of a kind, before the deferred function runs. -/
def kindSearchBody {ρ β : Type} (re : Regexp ρ) (c : KindCollection β) :
    List String → Except String (KindCollection β)
  | [] => Except.ok c
  | [name] =>
    match re.MustCompile name with
    | Except.error r => Except.error r
    | Except.ok regex =>
      match c.Items with
      | Except.error r => Except.error r
      | Except.ok items =>
        Except.ok (c.withMatches
          (kindRangeAppend (fun item => re.MatchString regex item.Name) items []))
  | first :: rest =>
    match re.MustCompile (joinRest rest ("" ++ first)) with
    | Except.error r => Except.error r
    | Except.ok regex =>
      match c.Items with
      | Except.error r => Except.error r
      | Except.ok items =>
        Except.ok (c.withMatches
          (kindRangeAppend (fun item => re.MatchString regex item.Name) items []))

/-- Search conducts a wildcard search by names and returns matching items. -/
def KindCollection.Search {ρ β : Type} (c : KindCollection β) (re : Regexp ρ)
    (names : List String) : Except String (KindCollection β) :=
  match kindSearchBody re c names with
  | Except.ok collection => Except.ok collection
  | Except.error r =>
    if stringsContains r "regexp" then c.searchBak names else Except.error r

/-- The two calls the fetch functions of a kind make on the clientset, such
as `AppsV1().Deployments(ns).Get(name, opts)` and
`AppsV1().Deployments(ns).List(opts)`. -/
structure KindClientset (σ β : Type) where
  /-- The call `Get(name, opts)` in the namespace. -/
  Get : String → String → GetOptions → σ → Except String (Object β) × σ
  /-- The call `List(opts)` in the namespace. -/
  List : String → ListOptions → σ → Except String (ObjectList β) × σ

/-- The client, seen from the fetch functions of one kind. -/
structure KindClient (σ β : Type) where
  Options : ActionsMap
  CS : KindClientset σ β
  NS : String

/-- The loop that stamps every item with the group, version and kind of `k`. -/
def kindStampItems {β : Type} (k : ResourceKind) : List (Object β) → List (Object β)
  | [] => []
  | item :: items =>
    item.SetGroupVersionKind { Group := k.APIGroup, Version := k.APIVersion, Kind := k.Kind }
      :: kindStampItems k items

/-- The collection `GetAllDeployments` (`GetAllDaemonSets`, ...) builds from
the list the clientset returned: the list is stamped with the group, version
and list kind, every item with the group, version and kind, and the
collection takes the tags of the list. -/
def kindCollectionOf {β : Type} (k : ResourceKind) (list : ObjectList β) : KindCollection β :=
  { APIVersion := (list.SetGroupVersionKind
        { Group := k.APIGroup, Version := k.APIVersion, Kind := k.ListKind }).APIVersion,
    Kind := (list.SetGroupVersionKind
        { Group := k.APIGroup, Version := k.APIVersion, Kind := k.ListKind }).Kind,
    ItemList := some
      { list.SetGroupVersionKind
          { Group := k.APIGroup, Version := k.APIVersion, Kind := k.ListKind } with
        Items := kindStampItems k list.Items } }

/-- GetAllDeployments returns All Deployments for the current namespace set on
the client or all Deployments across all namespaces if not set (and likewise
for the daemon sets, replica sets and ingresses, and without a group for the
services and secrets). -/
def KindClient.GetAll {σ β : Type} (k : ResourceKind) (c : KindClient σ β) (s : σ) :
    Except String (KindCollection β × Option String × σ) :=
  match assertListAction (c.Options ListOption) with
  | Except.error r => Except.error r
  | Except.ok a =>
    match c.CS.List c.NS a.Get s with
    | (Except.error err, s') =>
      Except.ok ({ APIVersion := "", Kind := "", ItemList := none }, some err, s')
    | (Except.ok list, s') => Except.ok (kindCollectionOf k list, none, s')

/-- GetDeployment returns the deployment for the given name (and likewise for
the daemon sets, replica sets and ingresses, and without a group for the
services and secrets). -/
def KindClient.GetOne {σ β : Type} (k : ResourceKind) (c : KindClient σ β) (name : String)
    (s : σ) : Except String (KindItem β × Option String × σ) :=
  match assertGetAction (c.Options GetOption) with
  | Except.error r => Except.error r
  | Except.ok a =>
    match c.CS.Get (lookupNS c.NS) name a.Get s with
    | (Except.error err, s') =>
      Except.ok ({ APIVersion := "", Kind := "", Item := none }, some err, s')
    | (Except.ok p, s') =>
      Except.ok
        ({ APIVersion := (p.SetGroupVersionKind
              { Group := k.APIGroup, Version := k.APIVersion, Kind := k.Kind }).APIVersion,
           Kind := (p.SetGroupVersionKind
              { Group := k.APIGroup, Version := k.APIVersion, Kind := k.Kind }).Kind,
           Item := some (p.SetGroupVersionKind
              { Group := k.APIGroup, Version := k.APIVersion, Kind := k.Kind }) },
         none, s')

/-- An object named `name` as the API server returns it, with no body. -/
def object (name : String) : Object Unit :=
  { APIVersion := "", Kind := "", Name := name, UID := "uid-" ++ name, Body := () }

/-- A cluster of the examples with the deployments web and api in every
namespace. -/
def exampleApps : KindClientset Nat Unit where
  Get := fun _ name _ s =>
    (if name = "web" ∨ name = "api" then Except.ok (object name)
      else Except.error ("deployments.apps \"" ++ name ++ "\" not found"), s + 1)
  List := fun _ _ s =>
    (Except.ok { APIVersion := "", Kind := "", Items := [object "web", object "api"] }, s + 1)

/-- A client as `NewClient` builds it, on the example deployments. -/
def exampleAppsClient : KindClient Nat Unit :=
  { Options := makeActionMap, CS := exampleApps, NS := "" }

/-! ## Lemmas on the loops -/

theorem rangeAppend_eq (keep : V1Pod → Bool) (items found : List V1Pod) :
    rangeAppend keep items found = found ++ items.filter keep := by
  induction items generalizing found with
  | nil => simp [rangeAppend]
  | cons item items ih =>
    by_cases h : keep item = true
    · simp [rangeAppend, h, ih]
    · simp [rangeAppend, h, ih]

theorem joinRest_eq (rest : List String) (s : String) :
    joinRest rest s = String.intercalate.go s "|" rest := by
  induction rest generalizing s with
  | nil => simp [joinRest, String.intercalate.go]
  | cons r rest ih =>
    simp [joinRest, ih, String.intercalate.go, String.append_assoc]

theorem regexString_eq (names : List String) (h : names ≠ []) :
    regexString names = String.intercalate "|" names := by
  match names, h with
  | [name], _ => simp [regexString, String.intercalate, String.intercalate.go]
  | first :: r :: rest, _ =>
    simp [regexString, joinRest_eq, String.intercalate]

theorem podSearchBakLoop_eq (c : PodCollection) (l : PodList) (h : c.PodList = some l)
    (names : List String) (found : List V1Pod) :
    podSearchBakLoop c names found = Except.ok (found ++
      names.flatMap (fun name => l.Items.filter (fun item => stringsContains item.Name name))) := by
  induction names generalizing found with
  | nil => simp [podSearchBakLoop]
  | cons name names ih =>
    simp [podSearchBakLoop, PodCollection.Items, h, ih, rangeAppend_eq]

theorem hasPrefixChars_append (p s : List Char) : hasPrefixChars (p ++ s) p = true := by
  induction p with
  | nil => cases s <;> simp [hasPrefixChars]
  | cons c p ih => simp [hasPrefixChars, ih]

theorem containsChars_of_hasPrefixChars (s sub : List Char) (h : hasPrefixChars s sub = true) :
    containsChars s sub = true := by
  cases s with
  | nil => simpa [containsChars] using h
  | cons c s => simp [containsChars, h]

/-- The panic text of `MustCompile` contains `regexp`, whatever was compiled. -/
theorem mustCompile_panic_contains (q err : String) :
    stringsContains ("regexp: Compile(" ++ q ++ "): " ++ err) "regexp" = true := by
  have h : ("regexp: Compile(" ++ q ++ "): " ++ err).data
      = "regexp".data ++ (": Compile(" ++ q ++ "): " ++ err).data := by
    simp [String.data_append]
  unfold stringsContains
  rw [h]
  exact containsChars_of_hasPrefixChars _ _ (hasPrefixChars_append _ _)

/-- The panic text of a nil dereference does not contain `regexp`. -/
theorem nilDeref_not_regexp : stringsContains nilDeref "regexp" = false := by
  decide

theorem hasPrefixChars_iff (s p : List Char) : hasPrefixChars s p = true ↔ p <+: s := by
  induction p generalizing s with
  | nil => cases s <;> simp [hasPrefixChars]
  | cons d p ih =>
    cases s with
    | nil => simp [hasPrefixChars]
    | cons c s =>
      simp only [hasPrefixChars, Bool.and_eq_true, beq_iff_eq, ih, List.cons_prefix_cons]
      constructor
      · rintro ⟨h1, h2⟩
        exact ⟨h1.symm, h2⟩
      · rintro ⟨h1, h2⟩
        exact ⟨h1.symm, h2⟩

/-- The embedding of `strings.Contains` decides "is a contiguous sublist of". -/
theorem containsChars_iff (s sub : List Char) : containsChars s sub = true ↔ sub <:+: s := by
  induction s with
  | nil =>
    simp [containsChars, hasPrefixChars_iff, List.prefix_nil, List.infix_nil]
  | cons c s ih =>
    simp only [containsChars, Bool.or_eq_true, hasPrefixChars_iff, ih]
    constructor
    · rintro (h | h)
      · exact h.isInfix
      · exact h.trans (List.suffix_cons c s).isInfix
    · intro h
      rcases List.infix_cons_iff.mp h with h | h
      · exact Or.inl h
      · exact Or.inr h

theorem stringsContains_eq (s sub : String) :
    stringsContains s sub = decide (IsSubstring sub s) := by
  rw [Bool.eq_iff_iff]
  simp [stringsContains, IsSubstring, containsChars_iff]

/-- An item occurs in the concatenation of the per-pattern filters as often as
it occurs in the source, once for every pattern that selects it. -/
theorem count_flatMap_filter (sel : V1Pod → String → Bool) (items : List V1Pod)
    (names : List String) (item : V1Pod) :
    List.count item (names.flatMap (fun name => items.filter (fun i => sel i name)))
      = List.count item items * names.countP (fun name => sel item name) := by
  induction names with
  | nil => simp
  | cons name names ih =>
    rw [List.flatMap_cons, List.count_append, ih, List.countP_cons]
    by_cases h : sel item name = true
    · rw [List.count_filter (by simpa using h)]
      simp [h, Nat.mul_add, Nat.add_comm]
    · have h0 : List.count item (items.filter (fun i => sel i name)) = 0 := by
        rw [List.count_eq_zero]
        intro hm
        exact h (by simpa using (List.mem_filter.mp hm).2)
      simp [h, h0]

/-! ## Lemmas on `Search` -/

/-- Both pattern branches of the body compile `regexString names` and then
filter the items with the compiled expression. -/
theorem searchBody_eq {ρ : Type} (re : Regexp ρ) (c : PodCollection) (names : List String)
    (hne : names ≠ []) :
    searchBody re c names =
      match re.MustCompile (regexString names) with
      | Except.error r => Except.error r
      | Except.ok regex =>
        match c.Items with
        | Except.error r => Except.error r
        | Except.ok items =>
          Except.ok (c.withMatches
            (rangeAppend (fun pod => re.MatchString regex pod.Name) items [])) := by
  match names, hne with
  | [name], _ => rfl
  | first :: r :: rest, _ => rfl

theorem podSearchBak_eq (c : PodCollection) (l : PodList) (hl : c.PodList = some l)
    (names : List String) :
    c.podSearchBak names = Except.ok (c.withMatches
      (names.flatMap (fun name => l.Items.filter (fun item => stringsContains item.Name name)))) := by
  simp [PodCollection.podSearchBak, podSearchBakLoop_eq c l hl]

theorem Search_compile_ok {ρ : Type} (re : Regexp ρ) (c : PodCollection) (l : PodList)
    (names : List String) (regex : ρ) (hl : c.PodList = some l) (hne : names ≠ [])
    (hc : re.Compile (regexString names) = Except.ok regex) :
    c.Search re names = Except.ok (c.withMatches
      (l.Items.filter (fun pod => re.MatchString regex pod.Name))) := by
  simp [PodCollection.Search, searchBody_eq re c names hne, Regexp.MustCompile, hc,
    PodCollection.Items, hl, rangeAppend_eq]

theorem Search_compile_error {ρ : Type} (re : Regexp ρ) (c : PodCollection)
    (names : List String) (e : String) (hne : names ≠ [])
    (hc : re.Compile (regexString names) = Except.error e) :
    c.Search re names = c.podSearchBak names := by
  simp [PodCollection.Search, searchBody_eq re c names hne, Regexp.MustCompile, hc,
    mustCompile_panic_contains]

theorem Search_nil {ρ : Type} (re : Regexp ρ) (c : PodCollection) :
    c.Search re [] = Except.ok c := rfl

theorem Search_compile_ok_nil {ρ : Type} (re : Regexp ρ) (c : PodCollection)
    (names : List String) (regex : ρ) (hl : c.PodList = none) (hne : names ≠ [])
    (hc : re.Compile (regexString names) = Except.ok regex) :
    c.Search re names = Except.error nilDeref := by
  simp [PodCollection.Search, searchBody_eq re c names hne, Regexp.MustCompile, hc,
    PodCollection.Items, hl, nilDeref_not_regexp]

/-! ### What the regex tier keeps

On the regex tier the result is one pass over the source items, so it has no
duplicates of its own, keeps the source order and is a fixed point of the
same search.  The fallback tier, one pass per pattern, has none of the three
(see C7, C8 and C9). -/

theorem withMatches_withMatches (c : PodCollection) (found found' : List V1Pod) :
    (c.withMatches found).withMatches found' = c.withMatches found' := rfl

theorem Search_regex_tier_nodup {ρ : Type} (re : Regexp ρ) (c : PodCollection) (l : PodList)
    (names : List String) (regex : ρ) (hl : c.PodList = some l) (hne : names ≠ [])
    (hc : re.Compile (regexString names) = Except.ok regex) (hd : l.Items.Nodup) :
    ∃ found, c.Search re names = Except.ok (c.withMatches found) ∧ found.Nodup :=
  ⟨_, Search_compile_ok re c l names regex hl hne hc, hd.filter _⟩

theorem Search_regex_tier_sublist {ρ : Type} (re : Regexp ρ) (c : PodCollection)
    (l : PodList) (names : List String) (regex : ρ) (hl : c.PodList = some l)
    (hne : names ≠ []) (hc : re.Compile (regexString names) = Except.ok regex) :
    ∃ found, c.Search re names = Except.ok (c.withMatches found) ∧
      List.Sublist found l.Items :=
  ⟨_, Search_compile_ok re c l names regex hl hne hc, List.filter_sublist _⟩

theorem Search_regex_tier_idempotent {ρ : Type} (re : Regexp ρ) (c : PodCollection)
    (l : PodList) (names : List String) (regex : ρ) (hl : c.PodList = some l)
    (hne : names ≠ []) (hc : re.Compile (regexString names) = Except.ok regex) :
    ∃ r, c.Search re names = Except.ok r ∧ r.Search re names = Except.ok r := by
  refine ⟨_, Search_compile_ok re c l names regex hl hne hc, ?_⟩
  rw [Search_compile_ok re (c.withMatches _) _ names regex rfl hne hc,
    withMatches_withMatches]
  simp

/-! ## The regex tier -/

/-- C1: for every PodCollection holding an item list and every non-empty
pattern list whose `|`-joined expression compiles, `Search` returns, under the
tags of the source, exactly the items of the source whose name the compiled
expression matches (`MatchString`, the unanchored match), in the order of the
source and each as often as it occurs there: the filter of the source items. -/
theorem C1_search_regex_tier {ρ : Type} (re : Regexp ρ) (c : PodCollection) (l : PodList)
    (names : List String) (regex : ρ) (hl : c.PodList = some l) (hne : names ≠ [])
    (hc : re.Compile (String.intercalate "|" names) = Except.ok regex) :
    c.Search re names = Except.ok
      { APIVersion := c.APIVersion, Kind := c.Kind,
        PodList := some
          { APIVersion := "", Kind := "",
            Items := l.Items.filter (fun item => re.MatchString regex item.Name) } } := by
  rw [← regexString_eq names hne] at hc
  exact Search_compile_ok re c l names regex hl hne hc

/-- C1, the example of the specification: `Search("a")` on the names
cat, dog, bat returns cat, bat. -/
theorem C1_search_regex_tier_witness :
    goRegexp.Compile (String.intercalate "|" ["a"])
        = Except.ok (Rx.cat Rx.eps (Rx.lit 'a')) ∧
      (podsNamed ["cat", "dog", "bat"]).Search goRegexp ["a"]
        = Except.ok ((podsNamed ["cat", "dog", "bat"]).withMatches [pod "cat", pod "bat"]) :=
  ⟨rfl, (C1_search_regex_tier goRegexp (podsNamed ["cat", "dog", "bat"])
      { APIVersion := "v1", Kind := "List", Items := [pod "cat", pod "dog", pod "bat"] }
      ["a"] (Rx.cat Rx.eps (Rx.lit 'a')) rfl (by decide) rfl).trans rfl⟩

/-- C2, as stated, fails in both directions.  On the regex tier,
`Search("(a", "b)")` on the name a returns that item (the joined expression
`(a|b)` compiles and matches), although neither pattern compiles on its own,
neither is a substring of the name, and `Search` with either alone returns
nothing.  On the fallback tier, `Search("a.c", "[")` on the name abc returns
nothing, although the pattern `a.c` on its own matches abc. -/
theorem C2_search_or_individual_counterexample :
    ((podsNamed ["a"]).Search goRegexp ["(a", "b)"]
        = Except.ok ((podsNamed ["a"]).withMatches [pod "a"]) ∧
      matchesAlone goRegexp "(a" "a" = false ∧ matchesAlone goRegexp "b)" "a" = false ∧
      ¬ IsSubstring "(a" "a" ∧ ¬ IsSubstring "b)" "a" ∧
      (podsNamed ["a"]).Search goRegexp ["(a"]
        = Except.ok ((podsNamed ["a"]).withMatches []) ∧
      (podsNamed ["a"]).Search goRegexp ["b)"]
        = Except.ok ((podsNamed ["a"]).withMatches [])) ∧
    ((podsNamed ["abc"]).Search goRegexp ["a.c", "["]
        = Except.ok ((podsNamed ["abc"]).withMatches []) ∧
      matchesAlone goRegexp "a.c" "abc" = true ∧
      (podsNamed ["abc"]).Search goRegexp ["a.c"]
        = Except.ok ((podsNamed ["abc"]).withMatches [pod "abc"])) := by
  refine ⟨⟨rfl, rfl, rfl, by decide, by decide, rfl, rfl⟩, rfl, rfl, rfl⟩

/-- C2 (amended): for every collection holding an item list and every
non-empty pattern list, `Search` returns a collection under the tags of the
source, and an item is in it if and only if it is an item of the source and,
when the `|`-joined expression compiles, the compiled joined expression
matches its name, or, when the joined expression does not compile, its name
contains at least one of the patterns as a literal substring. -/
theorem C2_search_membership {ρ : Type} (re : Regexp ρ) (c : PodCollection) (l : PodList)
    (names : List String) (hl : c.PodList = some l) (hne : names ≠ []) :
    ∃ found, c.Search re names = Except.ok (c.withMatches found) ∧
      (∀ regex, re.Compile (String.intercalate "|" names) = Except.ok regex →
        ∀ item, item ∈ found ↔ item ∈ l.Items ∧ re.MatchString regex item.Name = true) ∧
      (∀ e, re.Compile (String.intercalate "|" names) = Except.error e →
        ∀ item, item ∈ found ↔ item ∈ l.Items ∧ ∃ p ∈ names, IsSubstring p item.Name) := by
  rw [← regexString_eq names hne]
  cases hc : re.Compile (regexString names) with
  | ok regex =>
    refine ⟨_, Search_compile_ok re c l names regex hl hne hc, ?_, ?_⟩
    · intro regex' h item
      cases h
      simp
    · intro e h
      cases h
  | error e =>
    refine ⟨_, (Search_compile_error re c names e hne hc).trans (podSearchBak_eq c l hl names),
      ?_, ?_⟩
    · intro regex h
      cases h
    · intro e' _ item
      simp only [List.mem_flatMap, List.mem_filter, stringsContains_eq, decide_eq_true_eq]
      constructor
      · rintro ⟨p, hp, hi, hs⟩
        exact ⟨hi, p, hp, hs⟩
      · rintro ⟨hi, p, hp, hs⟩
        exact ⟨p, hp, hi, hs⟩

/-- C2, the example of the specification: `Search("a", "d")` on the names
cat, dog, bat returns cat, dog, bat, each once, in the original order. -/
theorem C2_search_membership_witness :
    (podsNamed ["cat", "dog", "bat"]).Search goRegexp ["a", "d"]
        = Except.ok ((podsNamed ["cat", "dog", "bat"]).withMatches
            [pod "cat", pod "dog", pod "bat"]) ∧
      ∃ found, (podsNamed ["cat", "dog", "bat"]).Search goRegexp ["a", "d"]
          = Except.ok ((podsNamed ["cat", "dog", "bat"]).withMatches found) ∧
        (∀ regex, goRegexp.Compile (String.intercalate "|" ["a", "d"]) = Except.ok regex →
          ∀ item, item ∈ found ↔
            item ∈ [pod "cat", pod "dog", pod "bat"] ∧
              goRegexp.MatchString regex item.Name = true) ∧
        (∀ e, goRegexp.Compile (String.intercalate "|" ["a", "d"]) = Except.error e →
          ∀ item, item ∈ found ↔
            item ∈ [pod "cat", pod "dog", pod "bat"] ∧
              ∃ p ∈ ["a", "d"], IsSubstring p item.Name) :=
  ⟨rfl, C2_search_membership goRegexp (podsNamed ["cat", "dog", "bat"])
    { APIVersion := "v1", Kind := "List", Items := [pod "cat", pod "dog", pod "bat"] }
    ["a", "d"] rfl (by decide)⟩

/-! ## The fallback tier -/

/-- C3: for every collection holding an item list and every pattern list, the
fallback tier `podSearchBak` returns, under the tags of the source, the
concatenation over the patterns, in the order given, of the source items (in
source order) whose name contains that pattern as a literal substring; hence
every item occurs in the result as often as it occurs in the source, times the
number of patterns its name contains. -/
theorem C3_podSearchBak_concat (c : PodCollection) (l : PodList) (names : List String)
    (hl : c.PodList = some l) :
    c.podSearchBak names = Except.ok
        (c.withMatches (names.flatMap (fun name =>
          l.Items.filter (fun item => decide (IsSubstring name item.Name))))) ∧
      ∀ item,
        List.count item (names.flatMap (fun name =>
          l.Items.filter (fun item => decide (IsSubstring name item.Name))))
        = List.count item l.Items
            * names.countP (fun name => decide (IsSubstring name item.Name)) := by
  refine ⟨?_, count_flatMap_filter _ _ _⟩
  rw [podSearchBak_eq c l hl names]
  simp only [stringsContains_eq]

/-- C3, the examples of the specification: `Search("[")` on the names cat, dog
falls back and yields an empty collection, and an item matching two of three
literal patterns appears twice in the result of the fallback tier. -/
theorem C3_podSearchBak_concat_witness :
    ((podsNamed ["cat", "dog"]).podSearchBak ["["]
        = Except.ok ((podsNamed ["cat", "dog"]).withMatches []) ∧
      (podsNamed ["cat", "dog"]).Search goRegexp ["["]
        = Except.ok ((podsNamed ["cat", "dog"]).withMatches [])) ∧
    ((podsNamed ["cat", "dog"]).podSearchBak ["c", "x", "t"]
        = Except.ok ((podsNamed ["cat", "dog"]).withMatches [pod "cat", pod "cat"]) ∧
      List.count (pod "cat") [pod "cat", pod "cat"] = 2) :=
  ⟨⟨((C3_podSearchBak_concat (podsNamed ["cat", "dog"])
        { APIVersion := "v1", Kind := "List", Items := [pod "cat", pod "dog"] }
        ["["] rfl).1).trans (by decide), rfl⟩,
    ((C3_podSearchBak_concat (podsNamed ["cat", "dog"])
        { APIVersion := "v1", Kind := "List", Items := [pod "cat", pod "dog"] }
        ["c", "x", "t"] rfl).1).trans (by decide), by decide⟩

/-- C4: for every collection holding an item list and every non-empty pattern
list whose `|`-joined expression fails to compile, `Search` does not fail: it
returns what the fallback tier returns for all the patterns, the concatenation
of the per-pattern literal matches.  And for every collection and pattern
list, the deferred function of `Search` answers with the fallback tier exactly
when the body panicked with a text containing `regexp`, which happens exactly
when the pattern list is non-empty and its joined expression fails to
compile. -/
theorem C4_search_compile_failure {ρ : Type} (re : Regexp ρ) (c : PodCollection)
    (names : List String) :
    (∀ l e, c.PodList = some l → names ≠ [] →
      re.Compile (String.intercalate "|" names) = Except.error e →
      c.Search re names = c.podSearchBak names ∧
      c.Search re names = Except.ok
        (c.withMatches (names.flatMap (fun name =>
          l.Items.filter (fun item => decide (IsSubstring name item.Name)))))) ∧
    ((∃ r, searchBody re c names = Except.error r ∧ stringsContains r "regexp" = true) ↔
      (names ≠ [] ∧ ∃ e, re.Compile (String.intercalate "|" names) = Except.error e)) := by
  constructor
  · intro l e hl hne hc
    rw [← regexString_eq names hne] at hc
    have h1 := Search_compile_error re c names e hne hc
    refine ⟨h1, ?_⟩
    rw [h1, podSearchBak_eq c l hl names]
    simp only [stringsContains_eq]
  · by_cases hne : names = []
    · subst hne
      simp [searchBody]
    · rw [← regexString_eq names hne, searchBody_eq re c names hne]
      cases hc : re.Compile (regexString names) with
      | error e =>
        simp [Regexp.MustCompile, hc, mustCompile_panic_contains, hne]
      | ok regex =>
        cases hi : c.PodList with
        | none => simp [Regexp.MustCompile, hc, PodCollection.Items, hi, nilDeref_not_regexp]
        | some l => simp [Regexp.MustCompile, hc, PodCollection.Items, hi]

/-- C4, the example of the specification: `Search("a", "[")` on the names
cat, dog, bat returns cat, bat, by the fallback tier. -/
theorem C4_search_compile_failure_witness :
    (∃ e, goRegexp.Compile (String.intercalate "|" ["a", "["]) = Except.error e) ∧
      (podsNamed ["cat", "dog", "bat"]).Search goRegexp ["a", "["]
        = (podsNamed ["cat", "dog", "bat"]).podSearchBak ["a", "["] ∧
      (podsNamed ["cat", "dog", "bat"]).Search goRegexp ["a", "["]
        = Except.ok ((podsNamed ["cat", "dog", "bat"]).withMatches [pod "cat", pod "bat"]) :=
  ⟨⟨_, rfl⟩,
    ((C4_search_compile_failure goRegexp (podsNamed ["cat", "dog", "bat"]) ["a", "["]).1
      { APIVersion := "v1", Kind := "List", Items := [pod "cat", pod "dog", pod "bat"] }
      _ rfl (by decide) rfl).1,
    ((C4_search_compile_failure goRegexp (podsNamed ["cat", "dog", "bat"]) ["a", "["]).1
      { APIVersion := "v1", Kind := "List", Items := [pod "cat", pod "dog", pod "bat"] }
      _ rfl (by decide) rfl).2.trans (by decide)⟩

/-! ## No patterns, and the compiled expression -/

/-- C5: for every collection, `Search` called with no patterns returns the
source collection itself: the same items in the same order under the same
`Kind` and `APIVersion`. -/
theorem C5_search_no_patterns {ρ : Type} (re : Regexp ρ) (c : PodCollection) :
    c.Search re [] = Except.ok c :=
  Search_nil re c

/-- C6: for every non-empty pattern list, the expression `Search` compiles is
the patterns joined in order with the single character `|` between
consecutive patterns and nothing else; for a single pattern it is that pattern
verbatim, and the many-pattern branch run on a one-element list gives the same
expression.  The body of `Search` is: compile that joined expression, then
filter the items with it. -/
theorem C6_search_regex_string (names : List String) (hne : names ≠ []) :
    regexString names = String.intercalate "|" names ∧
    (∀ name, regexString [name] = name ∧ joinRest [] ("" ++ name) = name) ∧
    ∀ (ρ : Type) (re : Regexp ρ) (c : PodCollection),
      searchBody re c names =
        match re.MustCompile (String.intercalate "|" names) with
        | Except.error r => Except.error r
        | Except.ok regex =>
          match c.Items with
          | Except.error r => Except.error r
          | Except.ok items =>
            Except.ok (c.withMatches
              (items.filter (fun item => re.MatchString regex item.Name))) := by
  refine ⟨regexString_eq names hne, ?_, ?_⟩
  · intro name
    exact ⟨rfl, by simp [joinRest]⟩
  · intro ρ re c
    rw [searchBody_eq re c names hne, regexString_eq names hne]
    simp only [rangeAppend_eq, List.nil_append]

/-- C6 on three patterns: the expression compiled for a, b.c, d is `a|b.c|d`. -/
theorem C6_search_regex_string_witness :
    regexString ["a", "b.c", "d"] = "a|b.c|d" ∧
      String.intercalate "|" ["a", "b.c", "d"] = "a|b.c|d" :=
  ⟨(C6_search_regex_string ["a", "b.c", "d"] (by decide)).1.trans (by decide), by decide⟩

/-! ## Duplicates, order and idempotence -/

/-- C7 at a failing input: the collection of the single pod cat has pairwise
distinct items, `Search("a", "t", "[")` falls back (the joined expression
`a|t|[` does not compile) and returns the pod cat twice. -/
theorem C7_search_duplicates_on_fallback :
    [pod "cat"].Nodup ∧
      (podsNamed ["cat"]).Search goRegexp ["a", "t", "["]
        = Except.ok ((podsNamed ["cat"]).withMatches [pod "cat", pod "cat"]) ∧
      ¬ [pod "cat", pod "cat"].Nodup ∧
      List.count (pod "cat") [pod "cat", pod "cat"] = 2 := by
  refine ⟨by decide, rfl, by decide, by decide⟩

/-- C8 at a failing input: on the pods cat, dog (in that order)
`Search("d", "c", "[")` falls back and returns dog before cat, which is not a
subsequence of the source items. -/
theorem C8_search_order_on_fallback :
    (podsNamed ["cat", "dog"]).Search goRegexp ["d", "c", "["]
        = Except.ok ((podsNamed ["cat", "dog"]).withMatches [pod "dog", pod "cat"]) ∧
      ¬ List.Sublist [pod "dog", pod "cat"] [pod "cat", pod "dog"] := by
  refine ⟨rfl, by decide⟩

/-- C9 at a failing input: on the single pod cat, `Search("a", "t", "[")`
returns cat twice, and the same search on that result returns cat four times,
a different collection. -/
theorem C9_search_not_idempotent_on_fallback :
    (podsNamed ["cat"]).Search goRegexp ["a", "t", "["]
        = Except.ok ((podsNamed ["cat"]).withMatches [pod "cat", pod "cat"]) ∧
      ((podsNamed ["cat"]).withMatches [pod "cat", pod "cat"]).Search goRegexp ["a", "t", "["]
        = Except.ok ((podsNamed ["cat"]).withMatches
            [pod "cat", pod "cat", pod "cat", pod "cat"]) ∧
      (podsNamed ["cat"]).withMatches [pod "cat", pod "cat", pod "cat", pod "cat"]
        ≠ (podsNamed ["cat"]).withMatches [pod "cat", pod "cat"] := by
  refine ⟨rfl, rfl, by decide⟩

/-! ## Tags -/

/-- C10: for every collection and pattern list for which `Search` gets to
read the items (the collection holds an item list) or needs none (no
patterns), `Search` returns a collection, and every collection `Search` or the
fallback tier returns carries exactly the `APIVersion` and `Kind` of the
source, so that `GetKind` of the result equals `GetKind` of the source: on the
regex tier, on the fallback tier and on the no-pattern path. -/
theorem C10_search_keeps_tags {ρ : Type} (re : Regexp ρ) (c : PodCollection)
    (names : List String) (h : c.PodList ≠ none ∨ names = []) :
    (∃ r, c.Search re names = Except.ok r) ∧
    (∀ r, c.Search re names = Except.ok r →
      r.APIVersion = c.APIVersion ∧ r.Kind = c.Kind ∧ r.GetKind = c.GetKind) ∧
    (∀ r, c.podSearchBak names = Except.ok r →
      r.APIVersion = c.APIVersion ∧ r.Kind = c.Kind ∧ r.GetKind = c.GetKind) := by
  have hbak : ∀ r, c.podSearchBak names = Except.ok r →
      r.APIVersion = c.APIVersion ∧ r.Kind = c.Kind ∧ r.GetKind = c.GetKind := by
    intro r hr
    unfold PodCollection.podSearchBak at hr
    cases hloop : podSearchBakLoop c names [] with
    | error e => rw [hloop] at hr; cases hr
    | ok found =>
      rw [hloop] at hr
      cases hr
      exact ⟨rfl, rfl, rfl⟩
  by_cases hne : names = []
  · subst hne
    refine ⟨⟨c, rfl⟩, ?_, hbak⟩
    intro r hr
    cases hr
    exact ⟨rfl, rfl, rfl⟩
  · have hl : c.PodList ≠ none := h.resolve_right hne
    obtain ⟨l, hl⟩ := Option.ne_none_iff_exists'.mp hl
    cases hc : re.Compile (regexString names) with
    | ok regex =>
      have hs := Search_compile_ok re c l names regex hl hne hc
      refine ⟨⟨_, hs⟩, ?_, hbak⟩
      intro r hr
      rw [hs] at hr
      cases hr
      exact ⟨rfl, rfl, rfl⟩
    | error e =>
      have hs := (Search_compile_error re c names e hne hc).trans (podSearchBak_eq c l hl names)
      refine ⟨⟨_, hs⟩, ?_, hbak⟩
      intro r hr
      rw [hs] at hr
      cases hr
      exact ⟨rfl, rfl, rfl⟩

/-- C10 on the three paths: the results of `Search` on the pods cat, dog, bat
with the patterns a (regex tier), with a and `[` (fallback tier) and with no
pattern all have the kind `List` of the source. -/
theorem C10_search_keeps_tags_witness :
    (∃ r, (podsNamed ["cat", "dog", "bat"]).Search goRegexp ["a"] = Except.ok r ∧
      r.GetKind = "List" ∧ r.APIVersion = "v1") ∧
    (∃ r, (podsNamed ["cat", "dog", "bat"]).Search goRegexp ["a", "["] = Except.ok r ∧
      r.GetKind = "List" ∧ r.APIVersion = "v1") ∧
    (∃ r, (podsNamed ["cat", "dog", "bat"]).Search goRegexp [] = Except.ok r ∧
      r.GetKind = "List" ∧ r.APIVersion = "v1") := by
  have key : ∀ names, ∃ r, (podsNamed ["cat", "dog", "bat"]).Search goRegexp names = Except.ok r ∧
      r.GetKind = "List" ∧ r.APIVersion = "v1" := by
    intro names
    have h := C10_search_keeps_tags goRegexp (podsNamed ["cat", "dog", "bat"]) names
      (Or.inl (by decide))
    obtain ⟨r, hr⟩ := h.1
    exact ⟨r, hr, (h.2.1 r hr).2.2, (h.2.1 r hr).1⟩
  exact ⟨key _, key _, key _⟩

/-! ## Lemmas on the accessors -/

theorem getNamesLoop_eq (items : List V1Pod) (names : List String) :
    getNamesLoop items names = names ++ items.map (fun item => item.Name) := by
  induction items generalizing names with
  | nil => simp [getNamesLoop]
  | cons item items ih => simp [getNamesLoop, ih]

theorem getLoop_pod (name : String) (items : List V1Pod) :
    (getLoop name items).Pod = items.find? (fun item => decide (item.Name = name)) := by
  induction items with
  | nil => simp [getLoop, zeroPod]
  | cons item items ih =>
    by_cases h : item.Name = name
    · simp [getLoop, h]
    · simp [getLoop, h, ih]

theorem getLoop_tags (name : String) (items : List V1Pod) :
    ((getLoop name items).Pod = none ∧ getLoop name items = zeroPod) ∨
    (∃ item, getLoop name items
      = { APIVersion := PodAPIVersion, Kind := PodKind, Pod := some item }) := by
  induction items with
  | nil => exact Or.inl ⟨rfl, rfl⟩
  | cons item items ih =>
    by_cases h : item.Name = name
    · exact Or.inr ⟨item, by simp [getLoop, h]⟩
    · simpa [getLoop, h] using ih

/-! ## Get, GetNames and Len -/

/-- C11: for every collection holding an item list and every name, `Get`
returns and its underlying object is the first item, in collection order,
whose name equals the name exactly (string equality); when there is one the
wrapper is that item under the tags `v1` and `Pod`; and `Get` finds an item if
and only if the name is an element of `GetNames()`. -/
theorem C11_get_first_by_name (c : PodCollection) (l : PodList) (name : String)
    (hl : c.PodList = some l) :
    ∃ r, c.Get name = Except.ok r ∧
      r.Pod = l.Items.find? (fun item => decide (item.Name = name)) ∧
      (∀ item, r.Pod = some item →
        r = { APIVersion := "v1", Kind := "Pod", Pod := some item } ∧ item.Name = name ∧
        ∃ before after, l.Items = before ++ item :: after ∧
          ∀ other ∈ before, other.Name ≠ name) ∧
      ∃ names, c.GetNames = Except.ok names ∧ (r.Pod ≠ none ↔ name ∈ names) := by
  refine ⟨getLoop name l.Items, by simp [PodCollection.Get, PodCollection.Items, hl],
    getLoop_pod name l.Items, ?_, l.Items.map (fun item => item.Name),
    by simp [PodCollection.GetNames, PodCollection.Items, hl, getNamesLoop_eq], ?_⟩
  · intro item hitem
    refine ⟨?_, ?_, ?_⟩
    · rcases getLoop_tags name l.Items with h | ⟨item', h⟩
      · rw [h.1] at hitem
        cases hitem
      · rw [h] at hitem ⊢
        cases hitem
        rfl
    · rw [getLoop_pod] at hitem
      simpa using List.find?_some hitem
    · rw [getLoop_pod] at hitem
      obtain ⟨_, before, after, hsplit, hbefore⟩ := List.find?_eq_some.mp hitem
      exact ⟨before, after, hsplit, fun other ho => by simpa using hbefore other ho⟩
  · rw [getLoop_pod, ne_eq, List.find?_eq_none]
    simp

/-- C11 on the pods cat, dog, cat: `Get("dog")` returns the second item under
the tags `v1` and `Pod`, and dog is one of the names. -/
theorem C11_get_first_by_name_witness :
    (podsNamed ["cat", "dog", "cat"]).Get "dog"
        = Except.ok { APIVersion := "v1", Kind := "Pod", Pod := some (pod "dog") } ∧
      ∃ r, (podsNamed ["cat", "dog", "cat"]).Get "dog" = Except.ok r ∧
        r.Pod = [pod "cat", pod "dog", pod "cat"].find? (fun item => decide (item.Name = "dog")) ∧
        (∀ item, r.Pod = some item →
          r = { APIVersion := "v1", Kind := "Pod", Pod := some item } ∧ item.Name = "dog" ∧
          ∃ before after, [pod "cat", pod "dog", pod "cat"] = before ++ item :: after ∧
            ∀ other ∈ before, other.Name ≠ "dog") ∧
        ∃ names, (podsNamed ["cat", "dog", "cat"]).GetNames = Except.ok names ∧
          (r.Pod ≠ none ↔ "dog" ∈ names) :=
  ⟨rfl, C11_get_first_by_name (podsNamed ["cat", "dog", "cat"])
    { APIVersion := "v1", Kind := "List", Items := [pod "cat", pod "dog", pod "cat"] }
    "dog" rfl⟩

/-- On a collection holding an item list, for a name that no item carries (in
particular every name when the list has no items), `Get` returns the zero
value `Pod{}`: empty `APIVersion` and `Kind` and no underlying object. -/
theorem Get_not_found_of_list (c : PodCollection) (l : PodList) (name : String)
    (hl : c.PodList = some l) (hname : ∀ item ∈ l.Items, item.Name ≠ name) :
    c.Get name = Except.ok { APIVersion := "", Kind := "", Pod := none } := by
  have hnone : (getLoop name l.Items).Pod = none := by
    rw [getLoop_pod, List.find?_eq_none]
    intro item hi
    simpa using hname item hi
  rcases getLoop_tags name l.Items with h | ⟨item, h⟩
  · simp [PodCollection.Get, PodCollection.Items, hl, h.2, zeroPod]
  · rw [h] at hnone
    cases hnone

/-- On a collection whose list has no items, and on the pods cat, dog with a
name in another case, `Get` returns the zero value. -/
theorem Get_not_found_of_list_example :
    (podsNamed []).Get "x" = Except.ok { APIVersion := "", Kind := "", Pod := none } ∧
      (podsNamed ["cat", "dog"]).Get "Cat"
        = Except.ok { APIVersion := "", Kind := "", Pod := none } :=
  ⟨Get_not_found_of_list (podsNamed []) { APIVersion := "v1", Kind := "List", Items := [] } "x"
      rfl (by simp),
    Get_not_found_of_list (podsNamed ["cat", "dog"])
      { APIVersion := "v1", Kind := "List", Items := [pod "cat", pod "dog"] } "Cat"
      rfl (by decide)⟩

/-- C12 at a failing input: `GetPods` called with no names (and `GetPods` with
a name that does not resolve, and `GetAllPods` on a namespace the cluster does
not serve) returns `&PodCollection{}`, a collection with no items; on it
`Get("x")`, for a name no item carries, panics with a nil pointer dereference
instead of returning the zero value `Pod{}`, which `Get` does return on a
collection whose list is present and has no items. -/
theorem C12_get_panics_on_error_collection :
    ((exampleClient "").GetPods [] 0
        = Except.ok ({ APIVersion := "", Kind := "", PodList := none },
            some "no pods specified", 0) ∧
      (exampleClient "").GetPods ["dog"] 0
        = Except.ok ({ APIVersion := "", Kind := "", PodList := none },
            some "pods \"dog\" not found\n", 1) ∧
      (exampleClient "kube").GetAllPods 0
        = Except.ok ({ APIVersion := "", Kind := "", PodList := none },
            some "namespace not served", 1)) ∧
    PodCollection.Get { APIVersion := "", Kind := "", PodList := none } "x"
      = Except.error "runtime error: invalid memory address or nil pointer dereference" ∧
    (podsNamed []).Get "x" = Except.ok { APIVersion := "", Kind := "", Pod := none } := by
  refine ⟨⟨rfl, by decide, by decide⟩, rfl, rfl⟩

/-- On a collection holding an item list, `GetNames` returns the names of the
items in collection order, one per item: its length is `Len()`, its i-th
element is the name of the i-th item, and it is empty when the list has no
items. -/
theorem GetNames_of_list (c : PodCollection) (l : PodList) (hl : c.PodList = some l) :
    c.GetNames = Except.ok (l.Items.map (fun item => item.Name)) ∧
      c.Len = Except.ok (l.Items.map (fun item => item.Name)).length ∧
      (∀ i : Nat, (l.Items.map (fun item => item.Name))[i]?
        = Option.map (fun (item : V1Pod) => item.Name) l.Items[i]?) ∧
      (l.Items = [] → c.GetNames = Except.ok []) := by
  have h : c.GetNames = Except.ok (l.Items.map (fun item => item.Name)) := by
    simp [PodCollection.GetNames, PodCollection.Items, hl, getNamesLoop_eq]
  refine ⟨h, by simp [PodCollection.Len, PodCollection.Items, hl], ?_, ?_⟩
  · intro i
    simp
  · intro he
    rw [h, he]
    rfl

/-- The names of the pods cat, dog, bat, and of a list with no items. -/
theorem GetNames_of_list_example :
    (podsNamed ["cat", "dog", "bat"]).GetNames = Except.ok ["cat", "dog", "bat"] ∧
      (podsNamed ["cat", "dog", "bat"]).Len = Except.ok 3 ∧
      (podsNamed []).GetNames = Except.ok [] :=
  ⟨(GetNames_of_list (podsNamed ["cat", "dog", "bat"])
      { APIVersion := "v1", Kind := "List", Items := [pod "cat", pod "dog", pod "bat"] }
      rfl).1.trans rfl,
    (GetNames_of_list (podsNamed ["cat", "dog", "bat"])
      { APIVersion := "v1", Kind := "List", Items := [pod "cat", pod "dog", pod "bat"] }
      rfl).2.1.trans rfl,
    (GetNames_of_list (podsNamed []) { APIVersion := "v1", Kind := "List", Items := [] }
      rfl).2.2.2 rfl⟩

/-- C13 at a failing input: `GetPods` called with no names (and `GetPods` with
a name that does not resolve, and `GetAllPods` on a namespace the cluster does
not serve) returns `&PodCollection{}`, a collection with no items; on it
`GetNames` panics with a nil pointer dereference instead of returning an empty
sequence, and so does `Len`, so that the length of the names is not `Len()`
either.  On a collection whose list is present `GetNames` returns the names
in order (cat, dog, bat) and the empty sequence for no items. -/
theorem C13_getNames_panics_on_error_collection :
    ((exampleClient "").GetPods [] 0
        = Except.ok ({ APIVersion := "", Kind := "", PodList := none },
            some "no pods specified", 0) ∧
      (exampleClient "").GetPods ["dog"] 0
        = Except.ok ({ APIVersion := "", Kind := "", PodList := none },
            some "pods \"dog\" not found\n", 1) ∧
      (exampleClient "kube").GetAllPods 0
        = Except.ok ({ APIVersion := "", Kind := "", PodList := none },
            some "namespace not served", 1)) ∧
    PodCollection.GetNames { APIVersion := "", Kind := "", PodList := none }
      = Except.error "runtime error: invalid memory address or nil pointer dereference" ∧
    PodCollection.Len { APIVersion := "", Kind := "", PodList := none }
      = Except.error "runtime error: invalid memory address or nil pointer dereference" ∧
    (podsNamed ["cat", "dog", "bat"]).GetNames = Except.ok ["cat", "dog", "bat"] ∧
    (podsNamed []).GetNames = Except.ok [] := by
  refine ⟨⟨rfl, by decide, by decide⟩, rfl, rfl, rfl, rfl⟩

/-! ## Lemmas on the fetch functions -/

theorem stampItems_eq (items : List V1Pod) :
    stampItems items
      = items.map (fun item => { item with APIVersion := "v1", Kind := "Pod" }) := by
  induction items with
  | nil => rfl
  | cons item items ih =>
    rw [stampItems, ih]
    rfl

theorem stampItems_length (items : List V1Pod) : (stampItems items).length = items.length := by
  simp [stampItems_eq]

/-- The loop of `GetPods` collects the resolved objects and the text of the
failures of the answers of the clientset, in request order. -/
theorem getPodsLoop_eq {σ : Type} (c : Client σ) (a : GetAction) (ns : String)
    (hopt : c.Options GetOption = some (K8sAction.get a))
    (names : List String) (pods : List V1Pod) (errd : String) (s : σ) :
    getPodsLoop c ns names pods errd s = Except.ok
      (pods ++ resolved (lookups c.CS ns a.Get names s).1,
        errd ++ combinedError (failures (lookups c.CS ns a.Get names s).1),
        (lookups c.CS ns a.Get names s).2) := by
  induction names generalizing pods errd s with
  | nil => simp [getPodsLoop, lookups, resolved, failures, combinedError]
  | cons name names ih =>
    rcases h : c.CS.PodsGet ns name a.Get s with ⟨answer, s'⟩
    cases answer with
    | error err =>
      simp [getPodsLoop, hopt, assertGetAction, lookups, h, ih, resolved, failures,
        combinedError, String.append_assoc]
    | ok p =>
      simp [getPodsLoop, hopt, assertGetAction, lookups, h, ih, resolved, failures]

theorem lookups_length {σ : Type} (cs : Clientset σ) (ns : String) (opts : GetOptions)
    (names : List String) (s : σ) : (lookups cs ns opts names s).1.length = names.length := by
  induction names generalizing s with
  | nil => rfl
  | cons name names ih => simp [lookups, ih]

theorem GetPods_eq {σ : Type} (c : Client σ) (a : GetAction)
    (hopt : c.Options GetOption = some (K8sAction.get a))
    (names : List String) (hne : names ≠ []) (s : σ) :
    c.GetPods names s = Except.ok
      ((getPodsFinish names.length (resolved (lookups c.CS (lookupNS c.NS) a.Get names s).1)
          (combinedError (failures (lookups c.CS (lookupNS c.NS) a.Get names s).1))).1,
        (getPodsFinish names.length (resolved (lookups c.CS (lookupNS c.NS) a.Get names s).1)
          (combinedError (failures (lookups c.CS (lookupNS c.NS) a.Get names s).1))).2,
        (lookups c.CS (lookupNS c.NS) a.Get names s).2) := by
  have hlen : ¬ names.length < 1 := by
    cases names with
    | nil => exact absurd rfl hne
    | cons name names => simp
  simp [Client.GetPods, hlen, getPodsLoop_eq c a _ hopt]

theorem combinedError_data_ne_nil (errs : List String) (hne : errs ≠ []) :
    (combinedError errs).data ≠ [] := by
  cases errs with
  | nil => exact absurd rfl hne
  | cons err errs =>
    simp only [combinedError, String.data_append]
    intro h
    have h2 := (List.append_eq_nil.mp (List.append_eq_nil.mp h).1).2
    exact absurd h2 (by decide)

theorem combinedError_ne_empty (errs : List String) (hne : errs ≠ []) :
    combinedError errs ≠ "" := by
  intro h
  exact combinedError_data_ne_nil errs hne (by rw [h])

theorem combinedError_getLast (errs : List String) (hne : errs ≠ []) :
    (combinedError errs).data.getLast? = some '\n' := by
  induction errs with
  | nil => exact absurd rfl hne
  | cons err errs ih =>
    by_cases he : errs = []
    · subst he
      simp [combinedError, String.data_append]
    · have hd := combinedError_data_ne_nil errs he
      simp only [combinedError, String.data_append]
      rw [List.getLast?_append_of_ne_nil _ hd]
      exact ih he

theorem notFound_getLast (n : Nat) :
    (toString n ++ " pods not found").data.getLast? = some 'd' := by
  simp [String.data_append]

theorem succeeded_count (answers : List (Except String V1Pod)) :
    (resolved answers).length + (failures answers).length = answers.length := by
  induction answers with
  | nil => rfl
  | cons answer answers ih =>
    cases answer with
    | error err => simp [resolved, failures, ← ih]; omega
    | ok p => simp [resolved, failures, ← ih]; omega

theorem lookups_traced {σ : Type} (cs : Clientset σ) (ns : String) (opts : GetOptions)
    (names : List String) (s : σ) (log : List Call) :
    lookups cs.traced ns opts names (s, log)
      = ((lookups cs ns opts names s).1,
          ((lookups cs ns opts names s).2,
            log ++ names.map (fun name => Call.get ns name opts))) := by
  induction names generalizing s log with
  | nil => simp [lookups]
  | cons name names ih =>
    have h1 : cs.traced.PodsGet ns name opts (s, log)
        = ((cs.PodsGet ns name opts s).1,
            ((cs.PodsGet ns name opts s).2, log ++ [Call.get ns name opts])) := rfl
    simp only [lookups, h1, ih, List.map_cons, List.append_assoc, List.singleton_append]

/-- The collection and error of `GetPods` when some lookup succeeded. -/
theorem getPodsFinish_resolved (n : Nat) (pods : List V1Pod) (errd : String)
    (hpods : pods ≠ []) :
    getPodsFinish n pods errd =
      ({ APIVersion := "v1", Kind := "List",
         PodList := some { APIVersion := "v1", Kind := "List", Items := stampItems pods } },
        if errd ≠ "" then some errd else none) := by
  have hlen : ¬ pods.length < 1 := by
    cases pods with
    | nil => exact absurd rfl hpods
    | cons p pods => simp
  have hpos : pods.length > 0 := by omega
  simp only [getPodsFinish, hlen, false_and, if_false, hpos, true_and]
  rfl

/-- The collection and error of `GetPods` when no lookup succeeded. -/
theorem getPodsFinish_none (n : Nat) (errd : String) :
    getPodsFinish n [] errd =
      (emptyPodCollection,
        some (if errd ≠ "" then errd else toString n ++ " pods not found")) := by
  by_cases h : errd = ""
  · simp [getPodsFinish, h]
  · simp [getPodsFinish, h]

theorem resolved_of_all_failed (answers : List (Except String V1Pod))
    (hall : ∀ answer ∈ answers, ∃ err, answer = Except.error err) :
    resolved answers = [] ∧ answers = (failures answers).map Except.error := by
  induction answers with
  | nil => exact ⟨rfl, rfl⟩
  | cons answer answers ih =>
    obtain ⟨err, rfl⟩ := hall answer (List.mem_cons_self _ _)
    have h := ih (fun x hx => hall x (List.mem_cons_of_mem _ hx))
    refine ⟨by simpa [resolved] using h.1, ?_⟩
    simp only [failures, List.map_cons]
    rw [← h.2]

/-! ## Len and GetPods -/

/-- C14: for every collection holding a sequence of items, `Len` returns the
number of items of that sequence; and for every client whose options hold the
get action, whenever at least one lookup succeeds `GetPods` builds a
collection whose `Len` is the number of requested names whose lookup
succeeded (the requested names less the failed lookups). -/
theorem C14_len {σ : Type} (c : Client σ) (a : GetAction) (names : List String) (s : σ)
    (hopt : c.Options GetOption = some (K8sAction.get a))
    (hsome : resolved (lookups c.CS (lookupNS c.NS) a.Get names s).1 ≠ []) :
    (∀ (col : PodCollection) (l : PodList), col.PodList = some l →
      col.Len = Except.ok l.Items.length) ∧
    ∃ col err s', c.GetPods names s = Except.ok (col, err, s') ∧
      col.Len = Except.ok (resolved (lookups c.CS (lookupNS c.NS) a.Get names s).1).length ∧
      (resolved (lookups c.CS (lookupNS c.NS) a.Get names s).1).length
        = names.length - (failures (lookups c.CS (lookupNS c.NS) a.Get names s).1).length := by
  constructor
  · intro col l hl
    simp [PodCollection.Len, PodCollection.Items, hl]
  · have hne : names ≠ [] := by
      rintro rfl
      exact hsome rfl
    refine ⟨_, _, _, GetPods_eq c a hopt names hne s, ?_, ?_⟩
    · rw [getPodsFinish_resolved _ _ _ hsome]
      simp [PodCollection.Len, PodCollection.Items, stampItems_length]
    · have h1 := succeeded_count (lookups c.CS (lookupNS c.NS) a.Get names s).1
      have h2 := lookups_length c.CS (lookupNS c.NS) a.Get names s
      omega

/-- C14 on the example cluster: of the names cat, dog, bat, x two resolve, and
`Len` of the collection `GetPods` builds is 2. -/
theorem C14_len_witness :
    ∃ col err s', (exampleClient "").GetPods ["cat", "dog", "bat", "x"] 0
        = Except.ok (col, err, s') ∧ col.Len = Except.ok 2 := by
  obtain ⟨col, err, s', h1, h2, _⟩ :=
    (C14_len (exampleClient "") { GetOptions := { ResourceVersion := "" } }
      ["cat", "dog", "bat", "x"] 0 rfl (by decide)).2
  exact ⟨col, err, s', h1, h2.trans (by decide)⟩

/-- C15: for every client and every state of the connection, `GetPods` called
with zero names returns the empty collection `&PodCollection{}` together with
the error `no pods specified` and leaves the connection as it was: no request
is made to the clientset (the record of requests of a traced clientset is
unchanged), whatever the options and the clientset are. -/
theorem C15_getPods_no_names {σ : Type} (c : Client σ) (s : σ) (cs : Clientset σ)
    (log : List Call) :
    c.GetPods [] s
      = Except.ok ({ APIVersion := "", Kind := "", PodList := none },
          some "no pods specified", s) ∧
    ({ Options := c.Options, CS := cs.traced, NS := c.NS } : Client (σ × List Call)).GetPods
        [] (s, log)
      = Except.ok ({ APIVersion := "", Kind := "", PodList := none },
          some "no pods specified", (s, log)) :=
  ⟨rfl, rfl⟩

/-- C16: for every client whose options hold the get action and every name
list for which at least one lookup succeeds and at least one fails, `GetPods`
returns the collection, tagged `v1` and `List`, of exactly the objects that
resolved, in the order of the requested names (each stamped `v1`, `Pod`),
together with an error whose message is the concatenation, in request order,
of the message of each failed lookup followed by a newline. -/
theorem C16_getPods_some_failed {σ : Type} (c : Client σ) (a : GetAction) (names : List String)
    (s : σ) (hopt : c.Options GetOption = some (K8sAction.get a))
    (hsome : resolved (lookups c.CS (lookupNS c.NS) a.Get names s).1 ≠ [])
    (hfail : failures (lookups c.CS (lookupNS c.NS) a.Get names s).1 ≠ []) :
    c.GetPods names s = Except.ok
      ({ APIVersion := "v1", Kind := "List",
         PodList := some
           { APIVersion := "v1", Kind := "List",
             Items := (resolved (lookups c.CS (lookupNS c.NS) a.Get names s).1).map
               (fun p => { p with APIVersion := "v1", Kind := "Pod" }) } },
        some (combinedError (failures (lookups c.CS (lookupNS c.NS) a.Get names s).1)),
        (lookups c.CS (lookupNS c.NS) a.Get names s).2) := by
  have hne : names ≠ [] := by
    rintro rfl
    exact hsome rfl
  rw [GetPods_eq c a hopt names hne s, getPodsFinish_resolved _ _ _ hsome, stampItems_eq]
  simp [combinedError_ne_empty _ hfail]

/-- C16 on the example cluster: of the names cat, dog, bat, x the pods cat and
bat resolve, and the error text is the two not-found messages, each followed
by a newline. -/
theorem C16_getPods_some_failed_witness :
    (exampleClient "").GetPods ["cat", "dog", "bat", "x"] 0 = Except.ok
      ({ APIVersion := "v1", Kind := "List",
         PodList := some { APIVersion := "v1", Kind := "List", Items := [pod "cat", pod "bat"] } },
        some "pods \"dog\" not found\npods \"x\" not found\n", 4) :=
  (C16_getPods_some_failed (exampleClient "") { GetOptions := { ResourceVersion := "" } }
    ["cat", "dog", "bat", "x"] 0 rfl (by decide) (by decide)).trans (by decide)

/-- C17: for every client whose options hold the get action and every
non-empty name list for which every lookup fails, `GetPods` returns the empty
collection `&PodCollection{}` together with the combined error: the
concatenation, in request order, of the message of every lookup followed by a
newline (there is one message per requested name). -/
theorem C17_getPods_all_failed {σ : Type} (c : Client σ) (a : GetAction)
    (names : List String) (s : σ) (hopt : c.Options GetOption = some (K8sAction.get a))
    (hne : names ≠ [])
    (hall : ∀ answer ∈ (lookups c.CS (lookupNS c.NS) a.Get names s).1,
      ∃ err, answer = Except.error err) :
    c.GetPods names s = Except.ok
      ({ APIVersion := "", Kind := "", PodList := none },
        some (combinedError (failures (lookups c.CS (lookupNS c.NS) a.Get names s).1)),
        (lookups c.CS (lookupNS c.NS) a.Get names s).2) ∧
    (lookups c.CS (lookupNS c.NS) a.Get names s).1
      = (failures (lookups c.CS (lookupNS c.NS) a.Get names s).1).map Except.error ∧
    (failures (lookups c.CS (lookupNS c.NS) a.Get names s).1).length = names.length := by
  have h := resolved_of_all_failed _ hall
  have hlen : (failures (lookups c.CS (lookupNS c.NS) a.Get names s).1).length
      = names.length := by
    have h1 := succeeded_count (lookups c.CS (lookupNS c.NS) a.Get names s).1
    rw [h.1, lookups_length] at h1
    simpa using h1
  have hfail : failures (lookups c.CS (lookupNS c.NS) a.Get names s).1 ≠ [] := by
    intro h0
    rw [h0] at hlen
    cases names with
    | nil => exact hne rfl
    | cons name names => simp at hlen
  refine ⟨?_, h.2, hlen⟩
  rw [GetPods_eq c a hopt names hne s, h.1, getPodsFinish_none]
  simp [combinedError_ne_empty _ hfail, emptyPodCollection]

/-- C17 on the example cluster: neither dog nor x resolves. -/
theorem C17_getPods_all_failed_witness :
    (exampleClient "").GetPods ["dog", "x"] 0 = Except.ok
      ({ APIVersion := "", Kind := "", PodList := none },
        some "pods \"dog\" not found\npods \"x\" not found\n", 2) :=
  (C17_getPods_all_failed (exampleClient "") { GetOptions := { ResourceVersion := "" } }
    ["dog", "x"] 0 rfl (by decide) (by
      intro answer h
      have hl : (lookups (exampleClient "").CS (lookupNS (exampleClient "").NS)
          ({ GetOptions := { ResourceVersion := "" } } : GetAction).Get ["dog", "x"] 0).1
          = [Except.error "pods \"dog\" not found", Except.error "pods \"x\" not found"] := by
        decide
      rw [hl] at h
      simp only [List.mem_cons, List.mem_singleton, List.not_mem_nil, or_false] at h
      rcases h with rfl | rfl
      · exact ⟨_, rfl⟩
      · exact ⟨_, rfl⟩)).1.trans (by decide)

/-- In the part of `GetPods` after the loop, for `n` requested names, zero
resolved names and an empty error text give the empty collection
`&PodCollection{}` with the error `n pods not found`; a non-empty error text
gives that text instead, and the message `n pods not found` differs from
every combined error (a combined error ends in a newline). -/
theorem getPodsFinish_not_found (n : Nat) :
    getPodsFinish n [] ""
      = ({ APIVersion := "", Kind := "", PodList := none },
          some (toString n ++ " pods not found")) ∧
    (∀ errs : List String, errs ≠ [] →
      getPodsFinish n [] (combinedError errs)
        = ({ APIVersion := "", Kind := "", PodList := none }, some (combinedError errs)) ∧
      (getPodsFinish n [] (combinedError errs)).2 ≠ (getPodsFinish n [] "").2) := by
  refine ⟨by simp [getPodsFinish_none, emptyPodCollection], ?_⟩
  intro errs hne
  have hc := combinedError_ne_empty errs hne
  refine ⟨by simp [getPodsFinish_none, emptyPodCollection, hc], ?_⟩
  simp only [getPodsFinish_none, hc, ne_eq, not_false_eq_true, if_true, not_true_eq_false,
    if_false, Option.some.injEq]
  intro h
  have h1 := combinedError_getLast errs hne
  rw [h, notFound_getLast] at h1
  exact absurd h1 (by decide)

/-- C19: for every clientset, every client on it (with a record of the
requests) whose options hold the get and the list action, and every name
list, the requests `GetPods` makes are the lookups of the names, in order, in
the namespace `default` when the `NS` of the client is the empty string and in
`NS` otherwise; `GetPod` makes the one lookup in that same namespace; and
`GetAllPods` makes one list request with `NS` unchanged. -/
theorem C19_lookup_namespace {σ : Type} (cs : Clientset σ) (options : ActionsMap)
    (NS : String) (ga : GetAction) (la : ListAction) (names : List String) (name : String)
    (s : σ) (log : List Call)
    (hget : options GetOption = some (K8sAction.get ga))
    (hlist : options ListOption = some (K8sAction.list la)) :
    (∃ col err s',
      ({ Options := options, CS := cs.traced, NS := NS } : Client (σ × List Call)).GetPods
          names (s, log)
        = Except.ok (col, err, (s', log ++
            names.map (fun n => Call.get (if NS = "" then "default" else NS) n ga.Get)))) ∧
    (∃ p err s',
      ({ Options := options, CS := cs.traced, NS := NS } : Client (σ × List Call)).GetPod
          name (s, log)
        = Except.ok (p, err, (s', log ++
            [Call.get (if NS = "" then "default" else NS) name ga.Get]))) ∧
    (∃ col err s',
      ({ Options := options, CS := cs.traced, NS := NS } : Client (σ × List Call)).GetAllPods
          (s, log)
        = Except.ok (col, err, (s', log ++ [Call.list NS la.Get]))) := by
  refine ⟨?_, ?_, ?_⟩
  · by_cases hne : names = []
    · subst hne
      exact ⟨emptyPodCollection, some "no pods specified", s, by simp [Client.GetPods]⟩
    · have h := GetPods_eq
        ({ Options := options, CS := cs.traced, NS := NS } : Client (σ × List Call))
        ga hget names hne (s, log)
      simp only [lookups_traced] at h
      exact ⟨_, _, _, h⟩
  · rcases h : cs.PodsGet (lookupNS NS) name ga.Get s with ⟨answer, s'⟩
    cases answer with
    | error err =>
      refine ⟨zeroPod, some err, s', ?_⟩
      simp only [Client.GetPod, hget, assertGetAction, Clientset.traced, h]
      rfl
    | ok p =>
      refine ⟨{ APIVersion := "v1", Kind := "Pod",
                Pod := some { p with APIVersion := "v1", Kind := "Pod" } }, none, s', ?_⟩
      simp only [Client.GetPod, hget, assertGetAction, Clientset.traced, h]
      rfl
  · rcases h : cs.PodsList NS la.Get s with ⟨answer, s'⟩
    cases answer with
    | error err =>
      refine ⟨emptyPodCollection, some err, s', ?_⟩
      simp only [Client.GetAllPods, hlist, assertListAction, Clientset.traced, h]
    | ok l =>
      refine ⟨{ APIVersion := "v1", Kind := "List",
                PodList := some { APIVersion := "v1", Kind := "List",
                                  Items := stampItems l.Items } }, none, s', ?_⟩
      simp only [Client.GetAllPods, hlist, assertListAction, Clientset.traced, h]
      rfl

/-- C19 on the example cluster: with an empty `NS` the names cat and dog are
looked up in `default`, with the `NS` kube in kube, and `GetAllPods` lists the
empty namespace. -/
theorem C19_lookup_namespace_witness :
    (∃ col err s',
      ({ Options := makeActionMap, CS := exampleCluster.traced, NS := "" } :
          Client (Nat × List Call)).GetPods ["cat", "dog"] (0, [])
        = Except.ok (col, err, (s',
            [Call.get "default" "cat" { ResourceVersion := "" },
             Call.get "default" "dog" { ResourceVersion := "" }]))) ∧
    (∃ col err s',
      ({ Options := makeActionMap, CS := exampleCluster.traced, NS := "kube" } :
          Client (Nat × List Call)).GetPods ["cat", "dog"] (0, [])
        = Except.ok (col, err, (s',
            [Call.get "kube" "cat" { ResourceVersion := "" },
             Call.get "kube" "dog" { ResourceVersion := "" }]))) ∧
    (∃ col err s',
      ({ Options := makeActionMap, CS := exampleCluster.traced, NS := "" } :
          Client (Nat × List Call)).GetAllPods (0, [])
        = Except.ok (col, err, (s',
            [Call.list "" { LabelSelector := "", FieldSelector := "" }]))) :=
  ⟨(C19_lookup_namespace exampleCluster makeActionMap ""
      { GetOptions := { ResourceVersion := "" } }
      { ListOptions := { LabelSelector := "", FieldSelector := "" } }
      ["cat", "dog"] "cat" 0 [] rfl rfl).1,
    (C19_lookup_namespace exampleCluster makeActionMap "kube"
      { GetOptions := { ResourceVersion := "" } }
      { ListOptions := { LabelSelector := "", FieldSelector := "" } }
      ["cat", "dog"] "cat" 0 [] rfl rfl).1,
    (C19_lookup_namespace exampleCluster makeActionMap ""
      { GetOptions := { ResourceVersion := "" } }
      { ListOptions := { LabelSelector := "", FieldSelector := "" } }
      ["cat", "dog"] "cat" 0 [] rfl rfl).2.2⟩

/-- C20 at failing inputs: `GetPods` with zero names, `GetPods` with names
that do not resolve, and `GetAllPods` on a namespace the cluster does not
serve, all return `&PodCollection{}` with a non-nil error; on that collection
`Len` panics with a nil pointer dereference instead of returning 0, and
`Search` with one pattern panics in the same way instead of returning an empty
collection (as do `GetNames` and `Get`). -/
theorem C20_len_panics_on_error_collection :
    ((exampleClient "").GetPods [] 0
        = Except.ok (emptyPodCollection, some "no pods specified", 0) ∧
      (exampleClient "").GetPods ["dog"] 0
        = Except.ok (emptyPodCollection, some "pods \"dog\" not found\n", 1) ∧
      (exampleClient "kube").GetAllPods 0
        = Except.ok (emptyPodCollection, some "namespace not served", 1)) ∧
    emptyPodCollection.Len
      = Except.error "runtime error: invalid memory address or nil pointer dereference" ∧
    emptyPodCollection.Search goRegexp ["a"]
      = Except.error "runtime error: invalid memory address or nil pointer dereference" ∧
    emptyPodCollection.GetNames
      = Except.error "runtime error: invalid memory address or nil pointer dereference" ∧
    emptyPodCollection.Get "a"
      = Except.error "runtime error: invalid memory address or nil pointer dereference" := by
  refine ⟨⟨rfl, by decide, by decide⟩, rfl, by decide, rfl, rfl⟩

/-! ## The type discriminators -/

/-- C21: `GetAction.GetType()` returns `ListOption`, the discriminator that
`ListAction.GetType()` returns; so the action `makeActionMap` stores under the
key `GetOption` reports a type different from its key, while the actions under
`ListOption` and `DeleteOption` report their own keys. -/
theorem C21_getAction_type_is_list :
    (∀ a : GetAction, a.GetType = ListOption) ∧
    (∀ (a : GetAction) (b : ListAction), a.GetType = b.GetType) ∧
    (∃ action, makeActionMap GetOption = some action ∧
      action.GetType = ListOption ∧ action.GetType ≠ GetOption) ∧
    (∃ action, makeActionMap ListOption = some action ∧ action.GetType = ListOption) ∧
    (∃ action, makeActionMap DeleteOption = some action ∧ action.GetType = DeleteOption) := by
  refine ⟨fun _ => rfl, fun _ _ => rfl, ⟨_, rfl, rfl, by decide⟩, ⟨_, rfl, rfl⟩, ⟨_, rfl, rfl⟩⟩

/-! ## Failures that are not compile failures -/

/-- C22: for every collection and pattern list, a panic of the body of
`Search` whose text does not contain `regexp` is the result of `Search`: it is
raised again and the fallback tier is not consulted.  In particular, on a
collection without an item list, with a non-empty pattern list whose joined
expression compiles, `Search` fails with the nil-dereference panic and returns no collection. -/
theorem C22_search_reraises {ρ : Type} (re : Regexp ρ) (c : PodCollection)
    (names : List String) (r : String) (hbody : searchBody re c names = Except.error r)
    (hr : stringsContains r "regexp" = false) :
    c.Search re names = Except.error r ∧
    (∀ regex, c.PodList = none → re.Compile (String.intercalate "|" names) = Except.ok regex →
      r = nilDeref) ∧
    (∀ col, c.Search re names ≠ Except.ok col) := by
  have hs : c.Search re names = Except.error r := by
    simp [PodCollection.Search, hbody, hr]
  refine ⟨hs, ?_, ?_⟩
  · intro regex hnil hc
    have hne : names ≠ [] := by
      rintro rfl
      simp [searchBody] at hbody
    rw [← regexString_eq names hne] at hc
    have h2 := Search_compile_ok_nil re c names regex hnil hne hc
    rw [hs] at h2
    cases h2
    rfl
  · intro col hcol
    rw [hs] at hcol
    cases hcol

/-- C22 on the collection `&PodCollection{}`: `Search("a")` fails with the
nil-dereference panic, whose text does not contain `regexp`. -/
theorem C22_search_reraises_witness :
    searchBody goRegexp emptyPodCollection ["a"] = Except.error nilDeref ∧
      stringsContains nilDeref "regexp" = false ∧
      emptyPodCollection.Search goRegexp ["a"] = Except.error nilDeref :=
  ⟨rfl, by decide,
    (C22_search_reraises goRegexp emptyPodCollection ["a"] nilDeref rfl (by decide)).1⟩

/-! ## The error of GetPods -/

theorem assertGetAction_ok (x : Option K8sAction) (a : GetAction)
    (h : assertGetAction x = Except.ok a) : x = some (K8sAction.get a) := by
  cases x with
  | none => simp [assertGetAction] at h
  | some action =>
    cases action with
    | list b => simp [assertGetAction] at h
    | delete b => simp [assertGetAction] at h
    | get b =>
      simp only [assertGetAction, Except.ok.injEq] at h
      rw [h]

/-- When the loop of `GetPods` ends on a non-empty name list, the options
hold the get action. -/
theorem getPodsLoop_options {σ : Type} (c : Client σ) (ns : String) (names : List String)
    (hne : names ≠ []) (pods : List V1Pod) (errd : String) (s : σ)
    (out : List V1Pod × String × σ) (h : getPodsLoop c ns names pods errd s = Except.ok out) :
    ∃ a, c.Options GetOption = some (K8sAction.get a) := by
  cases names with
  | nil => exact absurd rfl hne
  | cons name names =>
    cases ha : assertGetAction (c.Options GetOption) with
    | error r => simp [getPodsLoop, ha] at h
    | ok a => exact ⟨a, assertGetAction_ok _ a ha⟩

theorem GetPods_options {σ : Type} (c : Client σ) (names : List String) (hne : names ≠ [])
    (s : σ) (out : PodCollection × Option String × σ) (h : c.GetPods names s = Except.ok out) :
    ∃ a, c.Options GetOption = some (K8sAction.get a) := by
  have hlen : ¬ names.length < 1 := by
    cases names with
    | nil => exact absurd rfl hne
    | cons name names => simp
  simp only [Client.GetPods, hlen, if_false] at h
  cases hloop : getPodsLoop c (lookupNS c.NS) names [] "" s with
  | error r => simp [hloop] at h
  | ok res => exact getPodsLoop_options c _ names hne _ _ _ res hloop

theorem combinedError_ne_notFound (errs : List String) (n : Nat) :
    combinedError errs ≠ toString n ++ " pods not found" := by
  intro h
  by_cases hne : errs = []
  · subst hne
    have h1 := notFound_getLast n
    rw [← h] at h1
    simp [combinedError] at h1
  · have h1 := combinedError_getLast errs hne
    rw [h, notFound_getLast] at h1
    exact absurd h1 (by decide)

theorem answers_ne_nil {σ : Type} (cs : Clientset σ) (ns : String) (opts : GetOptions)
    (names : List String) (hne : names ≠ []) (s : σ) :
    resolved (lookups cs ns opts names s).1 ≠ [] ∨
      failures (lookups cs ns opts names s).1 ≠ [] := by
  have h1 := succeeded_count (lookups cs ns opts names s).1
  rw [lookups_length] at h1
  by_cases hr : resolved (lookups cs ns opts names s).1 = []
  · right
    intro hf
    rw [hr, hf] at h1
    cases names with
    | nil => exact hne rfl
    | cons name names => simp at h1
  · exact Or.inl hr

theorem failures_eq_nil_iff (answers : List (Except String V1Pod)) :
    failures answers = [] ↔ ∀ answer ∈ answers, ∃ p, answer = Except.ok p := by
  induction answers with
  | nil => simp [failures]
  | cons answer answers ih =>
    cases answer with
    | error err =>
      simp only [failures, List.mem_cons]
      constructor
      · intro h
        cases h
      · intro h
        obtain ⟨p, hp⟩ := h (Except.error err) (Or.inl rfl)
        cases hp
    | ok p =>
      simp only [failures, ih, List.mem_cons]
      constructor
      · rintro h answer (rfl | ha)
        · exact ⟨p, rfl⟩
        · exact h answer ha
      · intro h answer ha
        exact h answer (Or.inr ha)

theorem resolved_of_no_failure (answers : List (Except String V1Pod))
    (h : failures answers = []) : answers = (resolved answers).map Except.ok := by
  induction answers with
  | nil => rfl
  | cons answer answers ih =>
    cases answer with
    | error err => simp [failures] at h
    | ok p =>
      simp only [failures] at h
      simp only [resolved, List.map_cons]
      rw [← ih h]

/-- C24: for every client, every non-empty name list and every behaviour of
the clientset, the loop of `GetPods` never ends with zero pods and an empty
error text (every requested name adds a pod or appends a message and a
newline, also when the message is empty), and `GetPods` never returns the
error `N pods not found`; it returns whenever the options hold the get
action. -/
theorem C24_not_found_unreachable {σ : Type} (c : Client σ) (names : List String) (s : σ)
    (hne : names ≠ []) :
    (∀ pods errd s', getPodsLoop c (lookupNS c.NS) names [] "" s = Except.ok (pods, errd, s') →
      ¬ (pods.length < 1 ∧ errd = "")) ∧
    (∀ col err s', c.GetPods names s = Except.ok (col, err, s') →
      err ≠ some (toString names.length ++ " pods not found")) ∧
    (∀ a, c.Options GetOption = some (K8sAction.get a) →
      ∃ col err s', c.GetPods names s = Except.ok (col, err, s')) := by
  refine ⟨?_, ?_, ?_⟩
  · intro pods errd s' h
    obtain ⟨a, hopt⟩ := getPodsLoop_options c _ names hne _ _ _ _ h
    rw [getPodsLoop_eq c a _ hopt] at h
    simp only [Except.ok.injEq, Prod.mk.injEq, List.nil_append, String.empty_append] at h
    obtain ⟨hp, he, _⟩ := h
    rintro ⟨hlen, herr⟩
    rcases answers_ne_nil c.CS (lookupNS c.NS) a.Get names hne s with hr | hf
    · rw [hp] at hr
      cases pods with
      | nil => exact hr rfl
      | cons p pods => simp at hlen
    · exact combinedError_ne_empty _ hf (he.trans herr)
  · intro col err s' h
    obtain ⟨a, hopt⟩ := GetPods_options c names hne s _ h
    rw [GetPods_eq c a hopt names hne s] at h
    simp only [Except.ok.injEq, Prod.mk.injEq] at h
    obtain ⟨_, herr, _⟩ := h
    rw [← herr]
    by_cases hr : resolved (lookups c.CS (lookupNS c.NS) a.Get names s).1 = []
    · rw [hr, getPodsFinish_none]
      have hf : failures (lookups c.CS (lookupNS c.NS) a.Get names s).1 ≠ [] :=
        (answers_ne_nil c.CS (lookupNS c.NS) a.Get names hne s).resolve_left (not_not.mpr hr)
      simp only [combinedError_ne_empty _ hf, ne_eq, not_false_eq_true, if_true,
        Option.some.injEq]
      exact combinedError_ne_notFound _ _
    · rw [getPodsFinish_resolved _ _ _ hr]
      by_cases he : combinedError (failures (lookups c.CS (lookupNS c.NS) a.Get names s).1) = ""
      · simp [he]
      · simp only [he, ne_eq, not_false_eq_true, if_true, Option.some.injEq]
        exact combinedError_ne_notFound _ _
  · intro a hopt
    exact ⟨_, _, _, GetPods_eq c a hopt names hne s⟩

/-- C24 on a cluster whose lookups fail with an empty message: the error of
`GetPods("x")` is a single newline, not `1 pods not found`. -/
theorem C24_not_found_unreachable_witness :
    ({ Options := makeActionMap, CS := silentCluster, NS := "" } : Client Nat).GetPods ["x"] 0
        = Except.ok (emptyPodCollection, some "\n", 1) ∧
      some "\n" ≠ some (toString ["x"].length ++ " pods not found") :=
  ⟨by decide,
    (C24_not_found_unreachable
      ({ Options := makeActionMap, CS := silentCluster, NS := "" } : Client Nat) ["x"] 0
      (by decide)).2.1 emptyPodCollection (some "\n") 1 (by decide)⟩

/-- C25: for every client whose options hold the get action and every
non-empty name list, `GetPods` returns, and its error is nil if and only if
every requested lookup succeeded; in that case the collection, tagged `v1` and
`List`, holds the looked-up objects (each stamped `v1`, `Pod`), one per
requested name and in request order. -/
theorem C25_getPods_error_nil_iff {σ : Type} (c : Client σ) (a : GetAction)
    (names : List String) (s : σ) (hopt : c.Options GetOption = some (K8sAction.get a))
    (hne : names ≠ []) :
    ∃ col err s', c.GetPods names s = Except.ok (col, err, s') ∧
      (err = none ↔
        ∀ answer ∈ (lookups c.CS (lookupNS c.NS) a.Get names s).1, ∃ p, answer = Except.ok p) ∧
      (err = none →
        col = { APIVersion := "v1", Kind := "List",
                PodList := some
                  { APIVersion := "v1", Kind := "List",
                    Items := (resolved (lookups c.CS (lookupNS c.NS) a.Get names s).1).map
                      (fun p => { p with APIVersion := "v1", Kind := "Pod" }) } } ∧
        (lookups c.CS (lookupNS c.NS) a.Get names s).1
          = (resolved (lookups c.CS (lookupNS c.NS) a.Get names s).1).map Except.ok ∧
        (resolved (lookups c.CS (lookupNS c.NS) a.Get names s).1).length = names.length) := by
  refine ⟨_, _, _, GetPods_eq c a hopt names hne s, ?_⟩
  have hiff : (getPodsFinish names.length
      (resolved (lookups c.CS (lookupNS c.NS) a.Get names s).1)
      (combinedError (failures (lookups c.CS (lookupNS c.NS) a.Get names s).1))).2 = none ↔
      failures (lookups c.CS (lookupNS c.NS) a.Get names s).1 = [] := by
    by_cases hr : resolved (lookups c.CS (lookupNS c.NS) a.Get names s).1 = []
    · have hf : failures (lookups c.CS (lookupNS c.NS) a.Get names s).1 ≠ [] :=
        (answers_ne_nil c.CS (lookupNS c.NS) a.Get names hne s).resolve_left (not_not.mpr hr)
      rw [hr, getPodsFinish_none]
      simp [hf]
    · rw [getPodsFinish_resolved _ _ _ hr]
      by_cases hf : failures (lookups c.CS (lookupNS c.NS) a.Get names s).1 = []
      · simp [hf, combinedError]
      · simp [hf, combinedError_ne_empty _ hf]
  refine ⟨hiff.trans (failures_eq_nil_iff _), ?_⟩
  intro herr
  have hf := hiff.mp herr
  have hr : resolved (lookups c.CS (lookupNS c.NS) a.Get names s).1 ≠ [] :=
    (answers_ne_nil c.CS (lookupNS c.NS) a.Get names hne s).resolve_right (not_not.mpr hf)
  refine ⟨?_, resolved_of_no_failure _ hf, ?_⟩
  · rw [getPodsFinish_resolved _ _ _ hr, stampItems_eq]
  · have h1 := succeeded_count (lookups c.CS (lookupNS c.NS) a.Get names s).1
    rw [hf, lookups_length] at h1
    simpa using h1

/-- C25 on the example cluster: the name cat requested twice with bat yields
the pod cat twice and bat, in request order, with a nil error; with dog in the
list the error is not nil. -/
theorem C25_getPods_error_nil_iff_witness :
    (exampleClient "").GetPods ["cat", "bat", "cat"] 0 = Except.ok
        ({ APIVersion := "v1", Kind := "List",
           PodList := some
             { APIVersion := "v1", Kind := "List",
               Items := [pod "cat", pod "bat", pod "cat"] } }, none, 3) ∧
      (∃ col err s', (exampleClient "").GetPods ["cat", "dog"] 0 = Except.ok (col, err, s') ∧
        err ≠ none) := by
  refine ⟨by decide, ?_⟩
  obtain ⟨col, err, s', h, hiff, _⟩ :=
    C25_getPods_error_nil_iff (exampleClient "") { GetOptions := { ResourceVersion := "" } }
      ["cat", "dog"] 0 rfl (by decide)
  refine ⟨col, err, s', h, ?_⟩
  intro hnone
  have hall := hiff.mp hnone (Except.error "pods \"dog\" not found") (by decide)
  obtain ⟨p, hp⟩ := hall
  cases hp

/-! ## The error `N pods not found` -/

/-- On a non-empty name list the loop of `GetPods` does not end with zero pods
and an empty error text. -/
theorem getPodsLoop_progress {σ : Type} (c : Client σ) (names : List String) (s : σ)
    (hne : names ≠ []) (pods : List V1Pod) (errd : String) (s' : σ)
    (h : getPodsLoop c (lookupNS c.NS) names [] "" s = Except.ok (pods, errd, s')) :
    ¬ (pods.length < 1 ∧ errd = "") := by
  obtain ⟨a, hopt⟩ := getPodsLoop_options c _ names hne _ _ _ _ h
  rw [getPodsLoop_eq c a _ hopt] at h
  simp only [Except.ok.injEq, Prod.mk.injEq, List.nil_append, String.empty_append] at h
  obtain ⟨hp, he, _⟩ := h
  rintro ⟨hlen, herr⟩
  rcases answers_ne_nil c.CS (lookupNS c.NS) a.Get names hne s with hr | hf
  · rw [hp] at hr
    cases pods with
    | nil => exact hr rfl
    | cons p pods => simp at hlen
  · exact combinedError_ne_empty _ hf (he.trans herr)

/-- On a non-empty name list the error `GetPods` returns is not
`N pods not found`. -/
theorem GetPods_error_ne_notFound {σ : Type} (c : Client σ) (names : List String) (s : σ)
    (hne : names ≠ []) (col : PodCollection) (err : Option String) (s' : σ)
    (h : c.GetPods names s = Except.ok (col, err, s')) :
    err ≠ some (toString names.length ++ " pods not found") := by
  obtain ⟨a, hopt⟩ := GetPods_options c names hne s _ h
  rw [GetPods_eq c a hopt names hne s] at h
  simp only [Except.ok.injEq, Prod.mk.injEq] at h
  obtain ⟨_, herr, _⟩ := h
  rw [← herr]
  by_cases hr : resolved (lookups c.CS (lookupNS c.NS) a.Get names s).1 = []
  · rw [hr, getPodsFinish_none]
    have hf : failures (lookups c.CS (lookupNS c.NS) a.Get names s).1 ≠ [] :=
      (answers_ne_nil c.CS (lookupNS c.NS) a.Get names hne s).resolve_left (not_not.mpr hr)
    simp only [combinedError_ne_empty _ hf, ne_eq, not_false_eq_true, if_true,
      Option.some.injEq]
    exact combinedError_ne_notFound _ _
  · rw [getPodsFinish_resolved _ _ _ hr]
    by_cases he : combinedError (failures (lookups c.CS (lookupNS c.NS) a.Get names s).1) = ""
    · simp [he]
    · simp only [he, ne_eq, not_false_eq_true, if_true, Option.some.injEq]
      exact combinedError_ne_notFound _ _

/-- C18, as stated, fails when no names are requested: the loop of `GetPods`
then ends with zero resolved pods and no error text recorded, and `GetPods`
returns the empty collection with the error `no pods specified`, which is not
`0 pods not found`. -/
theorem C18_getPods_not_found_counterexample :
    getPodsLoop (exampleClient "") (lookupNS (exampleClient "").NS) [] [] "" 0
      = Except.ok ([], "", 0) ∧
    (exampleClient "").GetPods [] 0
      = Except.ok ({ APIVersion := "", Kind := "", PodList := none },
          some "no pods specified", 0) ∧
    some "no pods specified"
      ≠ some (toString ([] : List String).length ++ " pods not found") := by
  refine ⟨rfl, rfl, by decide⟩

/-- C18 (amended): for every client, name list and state of the connection,
when zero requested names resolved and no error text was recorded, no names
were requested, and `GetPods` then returns the empty collection
`&PodCollection{}` with the error `no pods specified`; `GetPods` never
returns the error `N pods not found`, `N` being the number of names
requested.  That error belongs to the case of the `switch` for zero pods and
an empty error text, which would return it with the empty collection and
which differs from the combined-error case: a combined error is returned as
it is and is never the text `N pods not found`. -/
theorem C18_getPods_not_found_never_returned {σ : Type} (c : Client σ)
    (names : List String) (s : σ) :
    (∀ pods errd s',
      getPodsLoop c (lookupNS c.NS) names [] "" s = Except.ok (pods, errd, s') →
      pods.length < 1 → errd = "" →
      names = [] ∧
      c.GetPods names s
        = Except.ok ({ APIVersion := "", Kind := "", PodList := none },
            some "no pods specified", s)) ∧
    (∀ col err s', c.GetPods names s = Except.ok (col, err, s') →
      err ≠ some (toString names.length ++ " pods not found")) ∧
    getPodsFinish names.length [] ""
      = ({ APIVersion := "", Kind := "", PodList := none },
          some (toString names.length ++ " pods not found")) ∧
    (∀ errs : List String, errs ≠ [] →
      getPodsFinish names.length [] (combinedError errs)
        = ({ APIVersion := "", Kind := "", PodList := none }, some (combinedError errs)) ∧
      combinedError errs ≠ toString names.length ++ " pods not found") := by
  refine ⟨?_, ?_, (getPodsFinish_not_found names.length).1, ?_⟩
  · intro pods errd s' h hlen herr
    by_cases hne : names = []
    · subst hne
      exact ⟨rfl, rfl⟩
    · exact absurd ⟨hlen, herr⟩ (getPodsLoop_progress c names s hne pods errd s' h)
  · intro col err s' h
    by_cases hne : names = []
    · subst hne
      have h2 : c.GetPods [] s
          = Except.ok (emptyPodCollection, some "no pods specified", s) := rfl
      rw [h2] at h
      simp only [Except.ok.injEq, Prod.mk.injEq] at h
      rw [← h.2.1]
      decide
    · exact GetPods_error_ne_notFound c names s hne col err s' h
  · intro errs hne
    exact ⟨((getPodsFinish_not_found names.length).2 errs hne).1,
      combinedError_ne_notFound errs names.length⟩

/-- C18 (amended) on the example cluster: with no names the error is
`no pods specified`; with the name dog, which does not resolve, the error is
the combined error and not `1 pods not found`. -/
theorem C18_getPods_not_found_never_returned_witness :
    ([] = ([] : List String) ∧
      (exampleClient "").GetPods [] 0
        = Except.ok ({ APIVersion := "", Kind := "", PodList := none },
            some "no pods specified", 0)) ∧
    (exampleClient "").GetPods ["dog"] 0
      = Except.ok ({ APIVersion := "", Kind := "", PodList := none },
          some "pods \"dog\" not found\n", 1) ∧
    some "pods \"dog\" not found\n" ≠ some (toString ["dog"].length ++ " pods not found") :=
  ⟨(C18_getPods_not_found_never_returned (exampleClient "") [] 0).1 [] "" 0 rfl
      (by decide) rfl,
    by decide,
    (C18_getPods_not_found_never_returned (exampleClient "") ["dog"] 0).2.1
      { APIVersion := "", Kind := "", PodList := none } (some "pods \"dog\" not found\n") 1
      (by decide)⟩

/-! ## The other kinds against the pods -/

theorem kindRangeAppend_eq {β : Type} (keep : Object β → Bool)
    (items found : List (Object β)) :
    kindRangeAppend keep items found = found ++ items.filter keep := by
  induction items generalizing found with
  | nil => simp [kindRangeAppend]
  | cons item items ih =>
    by_cases h : keep item = true
    · simp [kindRangeAppend, h, ih]
    · simp [kindRangeAppend, h, ih]

theorem kindGetNamesLoop_eq {β : Type} (items : List (Object β)) (names : List String) :
    kindGetNamesLoop items names = names ++ items.map (fun item => item.Name) := by
  induction items generalizing names with
  | nil => simp [kindGetNamesLoop]
  | cons item items ih => simp [kindGetNamesLoop, ih]

theorem kindSearchBakLoop_eq {β : Type} (c : KindCollection β) (l : ObjectList β)
    (h : c.ItemList = some l) (names : List String) (found : List (Object β)) :
    kindSearchBakLoop c names found = Except.ok (found ++
      names.flatMap (fun name => l.Items.filter (fun item => stringsContains item.Name name))) := by
  induction names generalizing found with
  | nil => simp [kindSearchBakLoop]
  | cons name names ih =>
    simp [kindSearchBakLoop, KindCollection.Items, h, ih, kindRangeAppend_eq]

theorem kindSearchBak_eq {β : Type} (c : KindCollection β) (l : ObjectList β)
    (hl : c.ItemList = some l) (names : List String) :
    c.searchBak names = Except.ok (c.withMatches
      (names.flatMap (fun name => l.Items.filter (fun item => stringsContains item.Name name)))) := by
  simp [KindCollection.searchBak, kindSearchBakLoop_eq c l hl]

theorem kindSearchBody_eq {ρ β : Type} (re : Regexp ρ) (c : KindCollection β)
    (names : List String) (hne : names ≠ []) :
    kindSearchBody re c names =
      match re.MustCompile (regexString names) with
      | Except.error r => Except.error r
      | Except.ok regex =>
        match c.Items with
        | Except.error r => Except.error r
        | Except.ok items =>
          Except.ok (c.withMatches
            (kindRangeAppend (fun item => re.MatchString regex item.Name) items [])) := by
  match names, hne with
  | [name], _ => rfl
  | first :: r :: rest, _ => rfl

theorem kindSearch_compile_ok {ρ β : Type} (re : Regexp ρ) (c : KindCollection β)
    (l : ObjectList β) (names : List String) (regex : ρ) (hl : c.ItemList = some l)
    (hne : names ≠ []) (hc : re.Compile (regexString names) = Except.ok regex) :
    c.Search re names = Except.ok (c.withMatches
      (l.Items.filter (fun item => re.MatchString regex item.Name))) := by
  simp [KindCollection.Search, kindSearchBody_eq re c names hne, Regexp.MustCompile, hc,
    KindCollection.Items, hl, kindRangeAppend_eq]

theorem kindSearch_compile_error {ρ β : Type} (re : Regexp ρ) (c : KindCollection β)
    (names : List String) (e : String) (hne : names ≠ [])
    (hc : re.Compile (regexString names) = Except.error e) :
    c.Search re names = c.searchBak names := by
  simp [KindCollection.Search, kindSearchBody_eq re c names hne, Regexp.MustCompile, hc,
    mustCompile_panic_contains]

/-- Filters by predicates that agree on related items keep related items. -/
theorem forall₂_filter_of_agree {α γ : Type} (R : α → γ → Prop) (f : α → Bool) (g : γ → Bool)
    (hfg : ∀ x p, R x p → f x = g p) (xs : List α) (ps : List γ)
    (h : List.Forall₂ R xs ps) : List.Forall₂ R (xs.filter f) (ps.filter g) := by
  induction h with
  | nil => exact List.Forall₂.nil
  | @cons x p xs ps hxp _ ih =>
    have hx := hfg x p hxp
    by_cases hg : g p = true
    · rw [List.filter_cons_of_pos (by rw [hx, hg]), List.filter_cons_of_pos hg]
      exact List.Forall₂.cons hxp ih
    · rw [List.filter_cons_of_neg (by rw [hx]; exact hg), List.filter_cons_of_neg hg]
      exact ih

theorem forall₂_flatMap_filter {α γ : Type} (R : α → γ → Prop) (f : α → String → Bool)
    (g : γ → String → Bool) (hfg : ∀ x p, R x p → ∀ name, f x name = g p name)
    (xs : List α) (ps : List γ) (h : List.Forall₂ R xs ps) (names : List String) :
    List.Forall₂ R (names.flatMap (fun name => xs.filter (fun x => f x name)))
      (names.flatMap (fun name => ps.filter (fun p => g p name))) := by
  induction names with
  | nil => exact List.Forall₂.nil
  | cons name names ih =>
    rw [List.flatMap_cons, List.flatMap_cons]
    exact List.rel_append
      (forall₂_filter_of_agree R _ _ (fun x p hxp => hfg x p hxp name) xs ps h) ih

theorem forall₂_names {β : Type} (R : Object β → V1Pod → Prop)
    (hR : ∀ x p, R x p → x.Name = p.Name) (xs : List (Object β)) (ps : List V1Pod)
    (h : List.Forall₂ R xs ps) :
    xs.map (fun item => item.Name) = ps.map (fun item => item.Name) := by
  induction h with
  | nil => rfl
  | cons hxp _ ih =>
    simp only [List.map_cons, ih, hR _ _ hxp]

theorem kindGetLoop_rel {β : Type} (R : Object β → V1Pod → Prop)
    (hR : ∀ x p, R x p → x.Name = p.Name) (k : ResourceKind) (name : String)
    (xs : List (Object β)) (ps : List V1Pod) (h : List.Forall₂ R xs ps) :
    Option.Rel R (kindGetLoop k name xs).Item (getLoop name ps).Pod ∧
      ((kindGetLoop k name xs).Item ≠ none →
        (kindGetLoop k name xs).APIVersion = k.APIVersion ∧
        (kindGetLoop k name xs).Kind = k.Kind) ∧
      ((kindGetLoop k name xs).Item = none →
        (kindGetLoop k name xs).APIVersion = "" ∧ (kindGetLoop k name xs).Kind = "") := by
  induction h with
  | nil => exact ⟨Option.Rel.none, fun h => absurd rfl h, fun _ => ⟨rfl, rfl⟩⟩
  | @cons x p xs ps hxp _ ih =>
    have hx := hR x p hxp
    by_cases hn : p.Name = name
    · have hxn : x.Name = name := hx.trans hn
      have hk : kindGetLoop k name (x :: xs)
          = { APIVersion := k.APIVersion, Kind := k.Kind, Item := some x } := by
        simp [kindGetLoop, hxn]
      have hg : getLoop name (p :: ps)
          = { APIVersion := PodAPIVersion, Kind := PodKind, Pod := some p } := by
        simp [getLoop, hn]
      rw [hk, hg]
      exact ⟨Option.Rel.some hxp, fun _ => ⟨rfl, rfl⟩, fun h => by cases h⟩
    · have hxn : ¬ x.Name = name := fun h => hn (hx ▸ h)
      have hk : kindGetLoop k name (x :: xs) = kindGetLoop k name xs := by
        simp [kindGetLoop, hxn]
      have hg : getLoop name (p :: ps) = getLoop name ps := by
        simp [getLoop, hn]
      rw [hk, hg]
      exact ih

/-- C23: the collection functions of the other seven kinds (node, service,
secret, deployment, daemon set, replica set, ingress) do what those of
`PodCollection` do.  For every kind, every relation `R` between its objects
and pods that keeps the name, and every pair of collections whose items are
related position by position: `GetNames` and `Len` return the same; `Search`
and the fallback return collections, under the tags of their sources, whose
items are again related position by position (the same positions are
selected, in the same order, as often); and `Get` finds related items or
nothing on both sides, the wrapper of the kind carrying the version and kind
constants of the kind. -/
theorem C23_kinds_same_functions {ρ β : Type} (re : Regexp ρ) (R : Object β → V1Pod → Prop)
    (hR : ∀ x p, R x p → x.Name = p.Name) (k : ResourceKind) (kc : KindCollection β)
    (pc : PodCollection) (kl : ObjectList β) (pl : PodList) (hk : kc.ItemList = some kl)
    (hp : pc.PodList = some pl) (hrel : List.Forall₂ R kl.Items pl.Items)
    (names : List String) (name : String) :
    kc.GetNames = pc.GetNames ∧ kc.Len = pc.Len ∧
    (∃ kr pr krl prl, kc.Search re names = Except.ok kr ∧ pc.Search re names = Except.ok pr ∧
      kr.ItemList = some krl ∧ pr.PodList = some prl ∧ List.Forall₂ R krl.Items prl.Items ∧
      kr.APIVersion = kc.APIVersion ∧ kr.Kind = kc.Kind) ∧
    (∃ kfound pfound, kc.searchBak names = Except.ok (kc.withMatches kfound) ∧
      pc.podSearchBak names = Except.ok (pc.withMatches pfound) ∧
      List.Forall₂ R kfound pfound) ∧
    (∃ kw pw, kc.Get k name = Except.ok kw ∧ pc.Get name = Except.ok pw ∧
      Option.Rel R kw.Item pw.Pod ∧
      (kw.Item ≠ none → kw.APIVersion = k.APIVersion ∧ kw.Kind = k.Kind) ∧
      (kw.Item = none → kw.APIVersion = "" ∧ kw.Kind = "")) := by
  have hcontains : ∀ x p, R x p → ∀ n, stringsContains x.Name n = stringsContains p.Name n := by
    intro x p hxp n
    rw [hR x p hxp]
  have hbak := forall₂_flatMap_filter R (fun x n => stringsContains x.Name n)
    (fun p n => stringsContains p.Name n) hcontains kl.Items pl.Items hrel names
  refine ⟨?_, ?_, ?_, ?_, ?_⟩
  · simp [KindCollection.GetNames, KindCollection.Items, hk, PodCollection.GetNames,
      PodCollection.Items, hp, kindGetNamesLoop_eq, getNamesLoop_eq,
      forall₂_names R hR _ _ hrel]
  · simp [KindCollection.Len, KindCollection.Items, hk, PodCollection.Len,
      PodCollection.Items, hp, hrel.length_eq]
  · by_cases hne : names = []
    · subst hne
      exact ⟨kc, pc, kl, pl, rfl, rfl, hk, hp, hrel, rfl, rfl⟩
    · cases hc : re.Compile (regexString names) with
      | ok regex =>
        refine ⟨_, _, _, _, kindSearch_compile_ok re kc kl names regex hk hne hc,
          Search_compile_ok re pc pl names regex hp hne hc, rfl, rfl, ?_, rfl, rfl⟩
        exact forall₂_filter_of_agree R _ _
          (fun x p hxp => by simp only [hR x p hxp]) _ _ hrel
      | error e =>
        refine ⟨_, _, _, _,
          (kindSearch_compile_error re kc names e hne hc).trans (kindSearchBak_eq kc kl hk names),
          (Search_compile_error re pc names e hne hc).trans (podSearchBak_eq pc pl hp names),
          rfl, rfl, hbak, rfl, rfl⟩
  · exact ⟨_, _, kindSearchBak_eq kc kl hk names, podSearchBak_eq pc pl hp names, hbak⟩
  · refine ⟨kindGetLoop k name kl.Items, getLoop name pl.Items,
      by simp [KindCollection.Get, KindCollection.Items, hk],
      by simp [PodCollection.Get, PodCollection.Items, hp], ?_⟩
    exact kindGetLoop_rel R hR k name _ _ hrel

/-- C23 on deployments and pods with the names web, api, in that order: the
names and the length agree, and `Search("w")` selects the first item of
both. -/
theorem C23_kinds_same_functions_witness :
    (kindCollectionOf deploymentKind
        { APIVersion := "", Kind := "", Items := [object "web", object "api"] }).GetNames
      = (podsNamed ["web", "api"]).GetNames ∧
    (kindCollectionOf deploymentKind
        { APIVersion := "", Kind := "", Items := [object "web", object "api"] }).Len
      = (podsNamed ["web", "api"]).Len ∧
    resultNames ((podsNamed ["web", "api"]).Search goRegexp ["w"]) = some ["web"] ∧
    ((kindCollectionOf deploymentKind
        { APIVersion := "", Kind := "", Items := [object "web", object "api"] }).Search
          goRegexp ["w"]).toOption.map (fun c => c.ItemList.map
            (fun l => l.Items.map (fun item => item.Name)))
      = some (some ["web"]) := by
  have h := C23_kinds_same_functions goRegexp (fun (x : Object Unit) p => x.Name = p.Name)
    (fun _ _ hxp => hxp) deploymentKind
    (kindCollectionOf deploymentKind
      { APIVersion := "", Kind := "", Items := [object "web", object "api"] })
    (podsNamed ["web", "api"])
    { APIVersion := "apps/v1", Kind := "List",
      Items := kindStampItems deploymentKind [object "web", object "api"] }
    { APIVersion := "v1", Kind := "List", Items := [pod "web", pod "api"] }
    (by decide) rfl
    (List.Forall₂.cons rfl (List.Forall₂.cons rfl List.Forall₂.nil)) ["w"] "web"
  exact ⟨h.1, h.2.1, by decide, by decide⟩

/-! ## The tags of the wrapper of Get -/

/-- The version an object is stamped with equals the version constant of its
kind exactly when the kind has no group. -/
theorem stamped_apiVersion_eq_iff (k : ResourceKind) :
    (GroupVersionKind.ToAPIVersionAndKind
        { Group := k.APIGroup, Version := k.APIVersion, Kind := k.Kind }).1 = k.APIVersion ↔
      k.APIGroup = "" := by
  by_cases hg : k.APIGroup = ""
  · by_cases hv : k.APIVersion = ""
    · by_cases hk : k.Kind = ""
      · simp [GroupVersionKind.ToAPIVersionAndKind, hg, hv, hk]
      · simp [GroupVersionKind.ToAPIVersionAndKind, hg, hv, hk]
    · simp [GroupVersionKind.ToAPIVersionAndKind, hg, hv]
  · simp only [GroupVersionKind.ToAPIVersionAndKind, hg, false_and, if_false, ne_eq,
      not_false_eq_true, if_true, iff_false]
    intro h
    have hlen := congrArg String.length h
    simp only [String.length_append] at hlen
    have h1 : ("/" : String).length = 1 := by decide
    omega

/-- C26 at a failing input: `GetAllDeployments` stamps the deployment web with
the version `apps/v1` and the kind `Deployment`, and `GetDeployment("web")`
returns a wrapper with the version `apps/v1`; but `Get("web")` on the
collection returns a wrapper with the version `v1` around that item.  Of the
seven other kinds, the four with a group (deployment, daemon set, replica set,
ingress) have a version constant that differs from the stamped version. -/
theorem C26_get_wrapper_drops_group :
    exampleAppsClient.GetAll deploymentKind 0
      = Except.ok
          ({ APIVersion := "apps/v1", Kind := "List",
             ItemList := some
               { APIVersion := "apps/v1", Kind := "List",
                 Items :=
                   [{ APIVersion := "apps/v1", Kind := "Deployment", Name := "web",
                      UID := "uid-web", Body := () },
                    { APIVersion := "apps/v1", Kind := "Deployment", Name := "api",
                      UID := "uid-api", Body := () }] } },
            none, 1) ∧
    (kindCollectionOf deploymentKind
        { APIVersion := "", Kind := "", Items := [object "web", object "api"] }).Get
        deploymentKind "web"
      = Except.ok
          { APIVersion := "v1", Kind := "Deployment",
            Item := some { APIVersion := "apps/v1", Kind := "Deployment", Name := "web",
                           UID := "uid-web", Body := () } } ∧
    exampleAppsClient.GetOne deploymentKind "web" 0
      = Except.ok
          ({ APIVersion := "apps/v1", Kind := "Deployment",
             Item := some { APIVersion := "apps/v1", Kind := "Deployment", Name := "web",
                            UID := "uid-web", Body := () } },
            none, 1) ∧
    otherKinds.filter (fun k => decide
        ((GroupVersionKind.ToAPIVersionAndKind
          { Group := k.APIGroup, Version := k.APIVersion, Kind := k.Kind }).1 ≠ k.APIVersion))
      = [deploymentKind, daemonSetKind, replicaSetKind, ingressKind] := by
  refine ⟨by decide, by decide, by decide, by decide⟩

end Ak8s
